import Mathlib

/-!
Verification of the PyTerraria world/map decoder.

This file gives a shallow embedding, in Lean 4, of the parts of the
PyTerraria sources relevant to the claims under examination:

* BinaryString.py  — the positional byte reader (fixed-width integers,
  booleans, 7-bit packed varints, strings, packed bit arrays);
* Header.py        — the world file header and its validity check;
* Tile.py          — the run-length-encoded tile codec (FromStream);
* World.py         — LoadHeader, LoadTiles (value- and reference-level
  models), LoadChests, and the section-boundary logic of Load;
* Chest.py         — chest slot bookkeeping;
* MapFile.py       — Map.TileToLookup, the tile-to-color-descriptor
  cascade with its per-type option rules.

Bytes are modelled as natural numbers below 256 inside a list, machine
integers as Nat/Int with explicit wrapping where the source relies on it,
and Python exceptions as an explicit error type.  Python object references
(needed for the read-only tile sharing behavior) are modelled by an
explicit heap: a list of tile values addressed by index.
-/

namespace PyTerraria

/-- Python-level failures raised by the decoder.  EOFError and struct.error
both indicate a short buffer and are collapsed into one constructor; the
other constructors model DataError, AssertionError and IndexError. -/
inductive PyErr where
  | eof
  | dataError
  | assertionError
  | indexError
  | outOfFuel
deriving DecidableEq

/-- The BinaryString state: an immutable byte buffer plus a read position.
Models BinaryString.__init__ (self._content, self._pos). -/
structure BStream where
  content : List Nat
  pos : Nat
deriving DecidableEq

/-- Read a single byte and advance; models one-byte reads through
BinaryString._next / struct.unpack_from, which fail past the buffer end. -/
def takeByte (s : BStream) : Except PyErr (Nat × BStream) :=
  if s.pos < s.content.length then
    .ok (s.content.getD s.pos 0, ⟨s.content, s.pos + 1⟩)
  else .error .eof

/-- Read n raw bytes and advance; fails when fewer than n bytes remain,
as struct.unpack_from / BinaryString._next do. -/
def takeBytes (s : BStream) (n : Nat) : Except PyErr (List Nat × BStream) :=
  if s.pos + n ≤ s.content.length then
    .ok ((s.content.drop s.pos).take n, ⟨s.content, s.pos + n⟩)
  else .error .eof

/-- Little-endian value of a byte list (first byte least significant),
the interpretation struct.unpack applies with the format prefix used
throughout BinaryString.py. -/
def leNat (bs : List Nat) : Nat := bs.foldr (fun b acc => b + 256 * acc) 0

/-- BinaryString.readUInt8. -/
def readUInt8 (s : BStream) : Except PyErr (Nat × BStream) :=
  (takeBytes s 1).map (fun p => (leNat p.1, p.2))

/-- BinaryString.readByte: same reader as readUInt8 (both use format B). -/
def readByte (s : BStream) : Except PyErr (Nat × BStream) := readUInt8 s

/-- BinaryString.readUInt16. -/
def readUInt16 (s : BStream) : Except PyErr (Nat × BStream) :=
  (takeBytes s 2).map (fun p => (leNat p.1, p.2))

/-- BinaryString.readUInt32. -/
def readUInt32 (s : BStream) : Except PyErr (Nat × BStream) :=
  (takeBytes s 4).map (fun p => (leNat p.1, p.2))

/-- BinaryString.readUInt64. -/
def readUInt64 (s : BStream) : Except PyErr (Nat × BStream) :=
  (takeBytes s 8).map (fun p => (leNat p.1, p.2))

/-- Two's-complement reading of an unsigned w-bit value, as struct does for
the signed integer formats. -/
def toSigned (w : Nat) (v : Nat) : Int :=
  if v < 2 ^ (w - 1) then (v : Int) else (v : Int) - 2 ^ w

/-- BinaryString.readInt16. -/
def readInt16 (s : BStream) : Except PyErr (Int × BStream) :=
  (takeBytes s 2).map (fun p => (toSigned 16 (leNat p.1), p.2))

/-- BinaryString.readInt32. -/
def readInt32 (s : BStream) : Except PyErr (Int × BStream) :=
  (takeBytes s 4).map (fun p => (toSigned 32 (leNat p.1), p.2))

/-- BinaryString.readBoolean: generated by make-reader with the struct
bool format and bounds (0, 1).  The struct conversion turns any nonzero
byte into True before the bounds check runs, exactly as in the source;
the subsequent range check compares the resulting 0-or-1 integer value
of the Python bool against the bounds and raises DataError on failure. -/
def readBoolean (s : BStream) : Except PyErr (Bool × BStream) :=
  match takeByte s with
  | .error e => .error e
  | .ok (b, s1) =>
    let value : Bool := b != 0
    let ival : Nat := if value then 1 else 0
    if 0 ≤ ival ∧ ival ≤ 1 then .ok (value, s1) else .error .dataError

/-- The while loop of BinaryString.readPacked7Int: given the byte just
read, the accumulated value and the current shift, keep consuming bytes
while the high bit of the previous byte is set.  Returns the value and
the number of additional bytes consumed by the loop. -/
def packed7While (byte value shift : Nat) (bytes : List Nat) :
    Option (Nat × Nat) :=
  if byte &&& 0x80 = 0 then some (value, 0)
  else
    match bytes with
    | [] => none
    | b :: rest =>
      (packed7While b (value ||| ((b &&& 0x7f) <<< shift)) (shift + 7)
        rest).map (fun p => (p.1, p.2 + 1))

/-- BinaryString.readPacked7Int: read one byte, take its low seven bits,
then continue per the high-bit continuation flag. -/
def readPacked7Int (s : BStream) : Except PyErr (Nat × BStream) :=
  match takeByte s with
  | .error e => .error e
  | .ok (byte, s1) =>
    match packed7While byte (byte &&& 0x7f) 7 (s1.content.drop s1.pos) with
    | none => .error .eof
    | some (value, consumed) => .ok (value, ⟨s1.content, s1.pos + consumed⟩)

/-- BinaryString.readString: a 7-bit-packed length followed by that many
raw bytes (the empty string when the length is zero). -/
def readString (s : BStream) : Except PyErr (List Nat × BStream) :=
  match readPacked7Int s with
  | .error e => .error e
  | .ok (length, s1) =>
    if length > 0 then takeBytes s1 length else .ok ([], s1)

/-- The loop body of BinaryString.readBitArray: the mask starts at 128 so
the first iteration reads a fresh byte; each byte is scanned from its
least significant bit upward. -/
def bitArrayAux : Nat → Nat → Nat → BStream → Except PyErr (List Bool × BStream)
  | 0, _, _, s => .ok ([], s)
  | n + 1, mask, byte, s =>
    if mask < 128 then
      let mask2 := mask <<< 1
      match bitArrayAux n mask2 byte s with
      | .error e => .error e
      | .ok (bits, s1) => .ok (decide ((byte &&& mask2) = mask2) :: bits, s1)
    else
      match takeByte s with
      | .error e => .error e
      | .ok (b, s1) =>
        match bitArrayAux n 1 b s1 with
        | .error e => .error e
        | .ok (bits, s2) => .ok (decide ((b &&& 1) = 1) :: bits, s2)

/-- BinaryString.readBitArray: when no bit count is supplied, a signed
16-bit length prefix is read first (a negative prefix yields an empty
range, hence no bits, exactly as range() does in the source). -/
def readBitArray (s : BStream) (nbits : Option Int) :
    Except PyErr (List Bool × BStream) :=
  match nbits with
  | some n => bitArrayAux n.toNat 128 0 s
  | none =>
    match readInt16 s with
    | .error e => .error e
    | .ok (n, s1) => bitArrayAux n.toNat 128 0 s1

/-- Modelled from the source docstring of BinaryString.py (the module has
no encoder function): while the number exceeds 0x7f, emit its low seven
bits with the high bit set and shift right by seven; finally emit the
remaining byte. -/
def pack7 (v : Nat) : List Nat :=
  if v ≤ 0x7f then [v]
  else ((v &&& 0x7f) ||| 0x80) :: pack7 (v >>> 7)
termination_by v
decreasing_by
  simp only [Nat.shiftRight_eq_div_pow]
  omega

/-- Low seven bits of a byte: masking with 0x7f is reduction mod 128. -/
lemma land127_eq_mod (a : Nat) : a &&& 127 = a % 128 := by
  have h7 : (127 : Nat) = 2 ^ 7 - 1 := by norm_num
  have h8 : (128 : Nat) = 2 ^ 7 := by norm_num
  rw [h7, h8]
  apply Nat.eq_of_testBit_eq
  intro i
  rw [Nat.testBit_and, Nat.testBit_mod_two_pow, Nat.testBit_two_pow_sub_one]
  by_cases hi : i < 7 <;> simp [hi]

/-- Bitwise or with a shifted value is addition when the low bits are free. -/
lemma lor_shiftLeft_eq_add (a b n : Nat) (h : a < 2 ^ n) :
    a ||| (b <<< n) = a + b * 2 ^ n := by
  apply Nat.eq_of_testBit_eq
  intro i
  rw [Nat.testBit_lor, Nat.testBit_shiftLeft]
  by_cases hi : i < n
  · have hge : ¬ (i ≥ n) := by omega
    have hmod : (a + b * 2 ^ n) % 2 ^ n = a := by
      rw [Nat.add_mul_mod_self_right, Nat.mod_eq_of_lt h]
    have ht : (a + b * 2 ^ n).testBit i
        = ((a + b * 2 ^ n) % 2 ^ n).testBit i := by
      rw [Nat.testBit_mod_two_pow]
      simp [hi]
    rw [ht, hmod]
    simp [hge]
  · have hge : i ≥ n := by omega
    have ha : a.testBit i = false :=
      Nat.testBit_lt_two_pow
        (lt_of_lt_of_le h (Nat.pow_le_pow_right (by omega) hge))
    have hdiv : (a + b * 2 ^ n) / 2 ^ i = b / 2 ^ (i - n) := by
      have hsplit : (2 : Nat) ^ i = 2 ^ n * 2 ^ (i - n) := by
        rw [← pow_add]
        congr 1
        omega
      rw [hsplit, ← Nat.div_div_eq_div_mul,
          Nat.add_mul_div_right _ _ (Nat.two_pow_pos n),
          Nat.div_eq_of_lt h]
      simp
    have hb2 : (a + b * 2 ^ n).testBit i = b.testBit (i - n) := by
      rw [Nat.testBit_to_div_mod, Nat.testBit_to_div_mod, hdiv]
    rw [hb2, ha]
    simp [hge]

/-- A value below 128 has a clear continuation bit. -/
lemma land128_eq_zero (a : Nat) (h : a < 128) : a &&& 128 = 0 := by
  have h8 : (128 : Nat) = 2 ^ 7 := by norm_num
  rw [h8] at h ⊢
  rw [Nat.and_two_pow, Nat.testBit_lt_two_pow h]
  simp

/-- A byte in the range 128..255 has a set continuation bit. -/
lemma land128_ne_zero (a : Nat) (h1 : 128 ≤ a) (h2 : a < 256) :
    a &&& 128 ≠ 0 := by
  have h8 : (128 : Nat) = 2 ^ 7 := by norm_num
  rw [h8, Nat.and_two_pow]
  have hd : a / 2 ^ 7 = 1 := by
    have : (2 : Nat) ^ 7 = 128 := by norm_num
    omega
  have ht : a.testBit 7 = true := by
    rw [Nat.testBit_to_div_mod, hd]
    rfl
  rw [ht]
  simp

/-- The continuation loop of readPacked7Int consumes exactly the encoding
of v and adds v, shifted into place, onto the accumulated value. -/
lemma packed7While_pack7 (v : Nat) :
    ∀ (b value shift : Nat) (rest : List Nat),
      b &&& 0x80 ≠ 0 → value < 2 ^ shift →
      packed7While b value shift (pack7 v ++ rest) =
        some (value + v * 2 ^ shift, (pack7 v).length) := by
  induction v using Nat.strong_induction_on with
  | _ v ih =>
    intro b value shift rest hb hval
    by_cases hv : v ≤ 127
    · rw [pack7, if_pos hv]
      simp only [List.singleton_append, List.length_singleton]
      rw [packed7While.eq_def, if_neg hb]
      simp only []
      rw [packed7While.eq_def]
      have hz : v &&& 0x80 = 0 := land128_eq_zero v (by omega)
      rw [if_pos hz]
      have hm : v &&& 0x7f = v := by
        rw [land127_eq_mod, Nat.mod_eq_of_lt (by omega)]
      rw [hm, lor_shiftLeft_eq_add value v shift hval]
      simp
    · rw [pack7, if_neg hv]
      simp only [List.cons_append, List.length_cons]
      rw [packed7While.eq_def, if_neg hb]
      simp only []
      have hc1 : (v &&& 0x7f) ||| 0x80 = v % 128 + 128 := by
        rw [land127_eq_mod]
        have h := lor_shiftLeft_eq_add (v % 128) 1 7 (by omega)
        norm_num [Nat.shiftLeft_eq] at h
        exact h
      have hcmask : ((v &&& 0x7f) ||| 0x80) &&& 0x7f = v % 128 := by
        rw [hc1, land127_eq_mod]
        omega
      have hcont : ((v &&& 0x7f) ||| 0x80) &&& 0x80 ≠ 0 := by
        rw [hc1]
        exact land128_ne_zero _ (by omega) (by omega)
      have hval2 : value ||| ((v % 128) <<< shift)
          = value + (v % 128) * 2 ^ shift :=
        lor_shiftLeft_eq_add value (v % 128) shift hval
      have hlt2 : value + (v % 128) * 2 ^ shift < 2 ^ (shift + 7) := by
        have hp : (2 : Nat) ^ (shift + 7) = 2 ^ shift * 128 := by
          rw [pow_add]
          norm_num
        have hr : v % 128 < 128 := Nat.mod_lt _ (by omega)
        have : (v % 128) * 2 ^ shift ≤ 127 * 2 ^ shift :=
          Nat.mul_le_mul_right _ (by omega)
        omega
      have hdiv : v >>> 7 = v / 128 := by
        rw [Nat.shiftRight_eq_div_pow]
      rw [hcmask, hval2]
      rw [ih (v >>> 7) (by rw [hdiv]; omega) _ _ _ rest hcont hlt2]
      have harith : value + (v % 128) * 2 ^ shift
          + (v >>> 7) * 2 ^ (shift + 7) = value + v * 2 ^ shift := by
        rw [hdiv]
        have hp : (2 : Nat) ^ (shift + 7) = 2 ^ shift * 128 := by
          rw [pow_add]
          norm_num
        rw [hp]
        have hsplit : v % 128 + 128 * (v / 128) = v := Nat.mod_add_div v 128
        calc value + (v % 128) * 2 ^ shift + v / 128 * (2 ^ shift * 128)
            = value + (v % 128 + 128 * (v / 128)) * 2 ^ shift := by ring
          _ = value + v * 2 ^ shift := by rw [hsplit]
      simp only [Option.map_some']
      rw [harith]

/-- Decoding the 7-bit packed encoding of v returns v and advances the
position exactly past the encoding. -/
theorem readPacked7Int_pack7 (v : Nat) (rest : List Nat) :
    readPacked7Int ⟨pack7 v ++ rest, 0⟩ =
      .ok (v, ⟨pack7 v ++ rest, (pack7 v).length⟩) := by
  by_cases hv : v ≤ 127
  · have hp : pack7 v = [v] := by
      rw [pack7, if_pos hv]
    rw [hp]
    rw [readPacked7Int]
    rw [takeByte]
    simp only [List.singleton_append, List.length_cons]
    rw [if_pos (by simp)]
    simp only [List.getD_cons_zero, List.drop_succ_cons, List.drop_zero]
    rw [packed7While.eq_def]
    have hz : v &&& 0x80 = 0 := land128_eq_zero v (by omega)
    rw [if_pos hz]
    have hm : v &&& 0x7f = v := by
      rw [land127_eq_mod, Nat.mod_eq_of_lt (by omega)]
    simp [hm]
  · have hp : pack7 v = ((v &&& 0x7f) ||| 0x80) :: pack7 (v >>> 7) := by
      rw [pack7, if_neg hv]
    rw [hp]
    rw [readPacked7Int]
    rw [takeByte]
    simp only [List.cons_append, List.length_cons]
    rw [if_pos (by simp)]
    simp only [List.getD_cons_zero, List.drop_succ_cons, List.drop_zero]
    have hc1 : (v &&& 0x7f) ||| 0x80 = v % 128 + 128 := by
      rw [land127_eq_mod]
      have h := lor_shiftLeft_eq_add (v % 128) 1 7 (by omega)
      norm_num [Nat.shiftLeft_eq] at h
      exact h
    have hcmask : ((v &&& 0x7f) ||| 0x80) &&& 0x7f = v % 128 := by
      rw [hc1, land127_eq_mod]
      omega
    have hcont : ((v &&& 0x7f) ||| 0x80) &&& 0x80 ≠ 0 := by
      rw [hc1]
      exact land128_ne_zero _ (by omega) (by omega)
    rw [hcmask]
    rw [packed7While_pack7 (v >>> 7) _ _ _ rest hcont
      (by
        have hpw : (2 : Nat) ^ 7 = 128 := by norm_num
        omega)]
    have harith : v % 128 + (v >>> 7) * 128 = v := by
      have hdiv : v >>> 7 = v / 128 := by
        rw [Nat.shiftRight_eq_div_pow]
      rw [hdiv]
      have := Nat.mod_add_div v 128
      omega
    simp [harith, Nat.add_comm]

deriving instance DecidableEq for Except

/-- Concrete evaluation of the encoder at 0x80. -/
lemma pack7_x80 : pack7 0x80 = [0x80, 0x01] := by
  rw [pack7, if_neg (by decide)]
  have e1 : (0x80 : Nat) &&& 0x7f ||| 0x80 = 0x80 := by decide
  have e2 : (0x80 : Nat) >>> 7 = 1 := by decide
  rw [e1, e2, pack7, if_pos (by decide)]

/-- Concrete evaluation of the encoder at 0x3fff. -/
lemma pack7_x3fff : pack7 0x3fff = [0xff, 0x7f] := by
  rw [pack7, if_neg (by decide)]
  have e1 : (0x3fff : Nat) &&& 0x7f ||| 0x80 = 0xff := by decide
  have e2 : (0x3fff : Nat) >>> 7 = 0x7f := by decide
  rw [e1, e2, pack7, if_pos (by decide)]

/-- Concrete evaluation of the encoder at 0x4000. -/
lemma pack7_x4000 : pack7 0x4000 = [0x80, 0x80, 0x01] := by
  rw [pack7, if_neg (by decide)]
  have e1 : (0x4000 : Nat) &&& 0x7f ||| 0x80 = 0x80 := by decide
  have e2 : (0x4000 : Nat) >>> 7 = 0x80 := by decide
  rw [e1, e2, pack7, if_neg (by decide)]
  have e3 : (0x80 : Nat) &&& 0x7f ||| 0x80 = 0x80 := by decide
  have e4 : (0x80 : Nat) >>> 7 = 1 := by decide
  rw [e3, e4, pack7, if_pos (by decide)]

/-- C8: varint round trip.  For every v in the range zero to two to the 63,
decoding the 7-bit packed encoding of v with readPacked7Int returns v; the
bytes 7f decode to 127, 80 01 to 128 and ff 7f to 16383; and the encodings
of 0x7f, 0x80, 0x3fff and 0x4000 occupy 1, 2, 2 and 3 bytes respectively. -/
theorem C8_varint_roundtrip :
    (∀ (v : Nat) (rest : List Nat), v < 2 ^ 63 →
        readPacked7Int ⟨pack7 v ++ rest, 0⟩ =
          .ok (v, ⟨pack7 v ++ rest, (pack7 v).length⟩)) ∧
    readPacked7Int ⟨[0x7f], 0⟩ = .ok (127, ⟨[0x7f], 1⟩) ∧
    readPacked7Int ⟨[0x80, 0x01], 0⟩ = .ok (128, ⟨[0x80, 0x01], 2⟩) ∧
    readPacked7Int ⟨[0xff, 0x7f], 0⟩ = .ok (16383, ⟨[0xff, 0x7f], 2⟩) ∧
    (pack7 0x7f).length = 1 ∧ (pack7 0x80).length = 2 ∧
    (pack7 0x3fff).length = 2 ∧ (pack7 0x4000).length = 3 := by
  refine ⟨fun v rest _ => readPacked7Int_pack7 v rest, ?_, ?_, ?_, ?_, ?_, ?_, ?_⟩
  · decide
  · decide
  · decide
  · rw [pack7, if_pos (by decide)]
    rfl
  · rw [pack7_x80]
    rfl
  · rw [pack7_x3fff]
    rfl
  · rw [pack7_x4000]
    rfl

/-- Witness for C8: the round-trip theorem applied at the concrete value
300, whose encoding is two bytes. -/
theorem C8_varint_roundtrip_witness :
    300 < 2 ^ 63 ∧
    readPacked7Int ⟨pack7 300 ++ [], 0⟩ =
      .ok (300, ⟨pack7 300 ++ [], (pack7 300).length⟩) :=
  ⟨by norm_num, C8_varint_roundtrip.1 300 [] (by norm_num)⟩

/-- C9: readBoolean never raises the out-of-range error.  The struct
conversion maps every nonzero byte to True, whose integer value 1 always
passes the bounds check, so whenever one byte can be read the reader
returns that byte's truth value; in particular the byte 0x02 yields True
rather than an OutOfRange failure (this is the code bug: the generated
range check of the make-reader is unreachable for the boolean format). -/
theorem C9_readBoolean_no_out_of_range :
    (∀ (s : BStream) (b : Nat) (s1 : BStream), takeByte s = .ok (b, s1) →
        readBoolean s = .ok (b != 0, s1)) ∧
    readBoolean ⟨[0x02], 0⟩ = .ok (true, ⟨[0x02], 1⟩) ∧
    readBoolean ⟨[0x00], 0⟩ = .ok (false, ⟨[0x00], 1⟩) ∧
    readBoolean ⟨[0x01], 0⟩ = .ok (true, ⟨[0x01], 1⟩) := by
  refine ⟨?_, by decide, by decide, by decide⟩
  intro s b s1 h
  unfold readBoolean
  rw [h]
  by_cases hb : b = 0
  · subst hb
    simp
  · have hbt : (b != 0) = true := by simpa using hb
    simp [hbt]

/-- Witness for C9: the general readBoolean description applied to a
stream holding the single byte 5. -/
theorem C9_readBoolean_no_out_of_range_witness :
    readBoolean ⟨[5], 0⟩ = .ok (5 != 0, ⟨[5], 1⟩) :=
  C9_readBoolean_no_out_of_range.1 ⟨[5], 0⟩ 5 ⟨[5], 1⟩ (by decide)

/-! ## Header.py and World.LoadHeader -/

/-- Header.RELOGIC_MAGIC. -/
def RELOGIC_MAGIC : Nat := 27981915666277746

/-- Header.FILETYPE_WORLD. -/
def FILETYPE_WORLD : Nat := 1

/-- Header.WorldFileHeader.ExpectedMetaMagic. -/
def ExpectedMetaMagic : Nat := RELOGIC_MAGIC ||| (FILETYPE_WORLD <<< 56)

/-- Header.SectionCount: the preallocated size of SectionPointers. -/
def SectionCount : Nat := 10

/-- Header.CompatibleVersion. -/
def CompatibleVersion : Nat := 102

/-- Header.WorldFileHeader: the parsed world file header. -/
structure WorldFileHeader where
  Version : Nat
  MetaMagic : Nat
  MetaRevision : Nat
  WorldBits : Nat
  SectionPointers : List Int
  FileSize : Nat
  ImportantTiles : List Bool
deriving DecidableEq

/-- Header.WorldFileHeader.AssertValid asserts exactly that MetaMagic
equals ExpectedMetaMagic (it checks nothing else, in particular not the
version). -/
def assertValidWorldHeader (h : WorldFileHeader) : Prop :=
  h.MetaMagic = ExpectedMetaMagic

instance (h : WorldFileHeader) : Decidable (assertValidWorldHeader h) := by
  unfold assertValidWorldHeader
  infer_instance

/-- Writing into a Python list raises IndexError past its length. -/
def listSetChecked {α : Type} (l : List α) (i : Nat) (v : α) :
    Except PyErr (List α) :=
  if i < l.length then .ok (l.set i v) else .error .indexError

/-- The pointer-reading loop of World.LoadHeader: for each section index,
read a u32 and store it into the preallocated SectionPointers list. -/
def loadSectionPointers : Nat → Nat → List Int → BStream →
    Except PyErr (List Int × BStream)
  | 0, _, ptrs, s => .ok (ptrs, s)
  | n + 1, i, ptrs, s =>
    match readUInt32 s with
    | .error e => .error e
    | .ok (v, s1) =>
      match listSetChecked ptrs i (v : Int) with
      | .error e => .error e
      | .ok ptrs1 => loadSectionPointers n (i + 1) ptrs1 s1

/-- World.LoadHeader: reads version, meta magic, revision, world bits, the
section pointer count, the pointers, and the important-tiles bit array
(whose length prefix is a signed 16-bit count).  The file size is captured
by seeking to the end and back.  No validation of any kind is performed:
neither AssertValid nor any version comparison is invoked. -/
def loadHeader (s0 : BStream) : Except PyErr (WorldFileHeader × BStream) := do
  let (version, s) ← readUInt32 s0
  let (metaMagic, s) ← readUInt64 s
  let (metaRevision, s) ← readUInt32 s
  let (worldBits, s) ← readUInt64 s
  let (numSectionPointers, s) ← readUInt16 s
  let fileSize := s.content.length
  let (ptrs, s) ←
    loadSectionPointers numSectionPointers 0
      (List.replicate SectionCount (-1)) s
  let (important, s) ← readBitArray s none
  pure (⟨version, metaMagic, metaRevision, worldBits, ptrs,
         fileSize, important⟩, s)

/-- A syntactically well-laid-out world prefix whose version is 101 (below
CompatibleVersion) and whose meta magic is zero (not the Re-Logic magic):
version, magic, revision, world bits, one section pointer equal to 32, and
an empty important-tiles bit array.  The flags pointer (32) equals the
position reached after the header, so World.Load would continue straight
into flags decoding. -/
def c2Buffer : List Nat :=
  [101, 0, 0, 0] ++ List.replicate 8 0 ++ List.replicate 4 0 ++
    List.replicate 8 0 ++ [1, 0] ++ [32, 0, 0, 0] ++ [0, 0]

/-- The header LoadHeader produces for c2Buffer. -/
def c2Header : WorldFileHeader :=
  ⟨101, 0, 0, 0, [32, -1, -1, -1, -1, -1, -1, -1, -1, -1], 32, []⟩

/-- C2: the failing input evaluated.  LoadHeader accepts a buffer whose
version (101) is below CompatibleVersion and whose meta magic (0) has
neither the Re-Logic signature in its low 56 bits nor the world file-type
tag, returning a header and leaving the stream at the declared flags
pointer; AssertValid, which would reject the magic, reports false on the
parsed header but is never invoked by World.Load, and no version check
exists in the world loader at all.  Loading therefore proceeds into
section decoding instead of failing fatally. -/
theorem C2_loadHeader_accepts_invalid_file :
    loadHeader ⟨c2Buffer, 0⟩ = .ok (c2Header, ⟨c2Buffer, 32⟩) ∧
    c2Header.Version < CompatibleVersion ∧
    (decide (c2Header.MetaMagic &&& 0x00FFFFFFFFFFFFFF = RELOGIC_MAGIC)
      = false) ∧
    (decide (assertValidWorldHeader c2Header) = false) ∧
    c2Header.SectionPointers.getD 0 0 = 32 := by
  refine ⟨by decide, by decide, by decide, by decide, by decide⟩

/-! ## Tile.py: the tile codec -/

/-- Tile.BIT_MOREHDR: another header byte follows. -/
def BIT_MOREHDR : Nat := 0x01

/-- Tile.BIT_ACTIVE. -/
def BIT_ACTIVE : Nat := 0x02

/-- Tile.BIT_HASWALL. -/
def BIT_HASWALL : Nat := 0x04

/-- Tile.MASK_LIQUID. -/
def MASK_LIQUID : Nat := 0x18

/-- Tile.SHFT_LIQUID. -/
def SHFT_LIQUID : Nat := 3

/-- Tile.BIT_TYPE16B. -/
def BIT_TYPE16B : Nat := 0x20

/-- Tile.BIT_TCOLOR (header 3). -/
def BIT_TCOLOR : Nat := 0x08

/-- Tile.BIT_WCOLOR (header 3). -/
def BIT_WCOLOR : Nat := 0x10

/-- Tile.BIT_REDWI (header 2). -/
def BIT_REDWI : Nat := 0x02

/-- Tile.BIT_GREENWI (header 2). -/
def BIT_GREENWI : Nat := 0x04

/-- Tile.BIT_BLUEWI (header 2). -/
def BIT_BLUEWI : Nat := 0x08

/-- Tile.MASK_BSTYLE (header 2). -/
def MASK_BSTYLE : Nat := 0x70

/-- Tile.SHFT_BSTYLE. -/
def SHFT_BSTYLE : Nat := 4

/-- Tile.BIT_ACTUATE (header 3). -/
def BIT_ACTUATE : Nat := 0x02

/-- Tile.BIT_INACTIV (header 3). -/
def BIT_INACTIV : Nat := 0x04

/-- Tile.MASK_HASRLE (header 1). -/
def MASK_HASRLE : Nat := 0xC0

/-- Tile.SHFT_RLE. -/
def SHFT_RLE : Nat := 6

/-- The test lambda of Tile.FromStream: val masked equals the mask. -/
def testMask (val mask : Nat) : Bool := (val &&& mask) == mask

/-- Tile.Tile with its serialized attributes and their defaults.  The
source attribute Type is called TypeId here because Type is reserved in
Lean; LiquidType and BrickStyle are stored as their numeric codes (the
From converters of the source are the identity on the masked in-range
values the codec produces). -/
structure TileData where
  IsActive : Bool := false
  WireRed : Bool := false
  WireGreen : Bool := false
  WireBlue : Bool := false
  TileColor : Nat := 0
  TypeId : Nat := 0
  Wall : Nat := 0
  WallColor : Nat := 0
  LiquidType : Nat := 0
  LiquidAmount : Nat := 0
  BrickStyle : Nat := 0
  Actuator : Bool := false
  InActive : Bool := false
  U : Int := -1
  V : Int := -1
deriving DecidableEq

instance : Inhabited TileData := ⟨{}⟩

/-- The trailing RLE read of Tile.FromStream (lines 251-256): width field
1 reads an unsigned byte, any other nonzero width field reads a signed
16-bit count, width field 0 leaves the count at zero. -/
def readRLECount (header1 : Nat) (s : BStream) : Except PyErr (Int × BStream) :=
  let rleType := (header1 &&& MASK_HASRLE) >>> SHFT_RLE
  if rleType = 1 then
    match readUInt8 s with
    | .error e => .error e
    | .ok (v, s1) => .ok ((v : Int), s1)
  else if rleType ≠ 0 then readInt16 s
  else .ok (0, s)

/-- Tile.FromStream: decode one tile and its run-length count.  The body
reads the optional second and third header bytes, the active-tile block
(type, frame coordinates for important types with the timer override,
tile paint), the wall block, the liquid amount, the wire/brick-style and
actuator flags, and finally the RLE count.  timersId stands for the
constant IDs.Tile.Timers. -/
def fromStream (timersId : Nat) (important : List Bool) (s0 : BStream) :
    Except PyErr ((TileData × Int) × BStream) := do
  let (header1, s) ← readUInt8 s0
  let (header2, s) ←
    if testMask header1 BIT_MOREHDR then readUInt8 s else pure (0, s)
  let (header3, s) ←
    if testMask header2 BIT_MOREHDR then readUInt8 s else pure (0, s)
  let t : TileData := {}
  let (t, s) ←
    if testMask header1 BIT_ACTIVE then do
      let (ty, s) ←
        if testMask header1 BIT_TYPE16B then readUInt16 s else readUInt8 s
      let t := { t with IsActive := true, TypeId := ty }
      let (t, s) ←
        if ty < important.length ∧ important.getD ty false = true then do
          let (u, s) ← readInt16 s
          let (v, s) ← readInt16 s
          let v := if ty = timersId then 0 else v
          pure ({ t with U := u, V := v }, s)
        else pure (t, s)
      let (t, s) ←
        if testMask header3 BIT_TCOLOR then do
          let (c, s) ← readUInt8 s
          pure ({ t with TileColor := c }, s)
        else pure (t, s)
      pure (t, s)
    else pure (t, s)
  let (t, s) ←
    if testMask header1 BIT_HASWALL then do
      let (wl, s) ← readUInt8 s
      let t := { t with Wall := wl }
      if testMask header3 BIT_WCOLOR then do
        let (c, s) ← readUInt8 s
        pure ({ t with WallColor := c }, s)
      else pure (t, s)
    else pure (t, s)
  let t := { t with LiquidType := (header1 &&& MASK_LIQUID) >>> SHFT_LIQUID }
  let (t, s) ←
    if t.LiquidType ≠ 0 then do
      let (a, s) ← readUInt8 s
      pure ({ t with LiquidAmount := a }, s)
    else pure (t, s)
  let t :=
    if header2 ≠ 0 then
      { t with
        WireRed := testMask header2 BIT_REDWI
        WireGreen := testMask header2 BIT_GREENWI
        WireBlue := testMask header2 BIT_BLUEWI
        BrickStyle := (header2 &&& MASK_BSTYLE) >>> SHFT_BSTYLE }
    else t
  let t :=
    if header3 ≠ 0 then
      { t with
        Actuator := testMask header3 BIT_ACTUATE
        InActive := testMask header3 BIT_INACTIV }
    else t
  let (rle, s) ← readRLECount header1 s
  pure ((t, rle), s)

/-! ## World.LoadTiles: the tile grid loop (value-level model) -/

/-- defaultdict(int) lookup-and-add of World._tile_counts and
World._wall_counts. -/
def bumpCount (c : Nat → Int) (key : Nat) (d : Int) : Nat → Int :=
  fun k => if k = key then c k + d else c k

/-- The body of the RLE expansion loop of World.LoadTiles (y += 1, i += w,
write the tile, decrement), iterated a fixed number of times. -/
def rleLoopAux : Nat → List (Option TileData) → Nat → Nat → Nat → TileData →
    Except PyErr (List (Option TileData) × Nat × Nat)
  | 0, grid, _, y, i, _ => .ok (grid, y, i)
  | k + 1, grid, w, y, i, t =>
    match listSetChecked grid (i + w) (some t) with
    | .error e => .error e
    | .ok grid1 => rleLoopAux k grid1 w (y + 1) (i + w) t

/-- The while rle greater than zero loop of World.LoadTiles: it runs once
per unit of rle, i.e. max(rle, 0) times (a non-positive count runs zero
iterations). -/
def rleLoop (grid : List (Option TileData)) (w y i : Nat) (t : TileData)
    (rle : Int) : Except PyErr (List (Option TileData) × Nat × Nat) :=
  rleLoopAux rle.toNat grid w y i t

/-- One iteration of the inner (y) loop body of World.LoadTiles: compute
the flat index of (x, y), decode a tile record, accumulate the per-type
tile and wall counts by max(rle, 1), write the tile at (x, y), expand the
run down the column, and advance y past the run. -/
def tileStep (timersId : Nat) (important : List Bool) (w : Nat) (x y : Nat)
    (grid : List (Option TileData)) (tcounts wcounts : Nat → Int)
    (s0 : BStream) :
    Except PyErr
      (List (Option TileData) × Nat × (Nat → Int) × (Nat → Int) × BStream) := do
  let i := y * w + x
  let ((t, rle), s) ← fromStream timersId important s0
  let tcounts :=
    if t.IsActive then bumpCount tcounts t.TypeId (max rle 1) else tcounts
  let wcounts :=
    if t.Wall ≠ 0 then bumpCount wcounts t.Wall (max rle 1) else wcounts
  let grid ← listSetChecked grid i (some t)
  let (grid, y2, _) ← rleLoop grid w y i t rle
  pure (grid, y2 + 1, tcounts, wcounts, s)

/-- The inner while loop of World.LoadTiles: decode records while y is
below the height and the stream position is before the section end. -/
def innerLoop (timersId : Nat) (important : List Bool) (w h endp : Nat) :
    Nat → Nat → Nat → List (Option TileData) → (Nat → Int) → (Nat → Int) →
    BStream →
    Except PyErr
      (Nat × Nat × List (Option TileData) × (Nat → Int) × (Nat → Int) ×
        BStream)
  | 0, _, _, _, _, _, _ => .error .outOfFuel
  | fuel + 1, x, y, grid, tc, wc, s =>
    if y < h ∧ s.pos < endp then
      match tileStep timersId important w x y grid tc wc s with
      | .error e => .error e
      | .ok (grid1, y1, tc1, wc1, s1) =>
        innerLoop timersId important w h endp fuel x y1 grid1 tc1 wc1 s1
    else .ok (x, y, grid, tc, wc, s)

/-- The outer while loop of World.LoadTiles: per column, set y to zero,
run the inner loop, then advance x; the running y value survives the
loops for the end-of-section diagnostics. -/
def outerLoop (timersId : Nat) (important : List Bool) (w h endp : Nat) :
    Nat → Nat → Nat → List (Option TileData) → (Nat → Int) → (Nat → Int) →
    BStream →
    Except PyErr
      (Nat × Nat × List (Option TileData) × (Nat → Int) × (Nat → Int) ×
        BStream)
  | 0, _, _, _, _, _, _ => .error .outOfFuel
  | fuel + 1, x, y, grid, tc, wc, s =>
    if x < w ∧ s.pos < endp then
      match innerLoop timersId important w h endp fuel x 0 grid tc wc s with
      | .error e => .error e
      | .ok (_, y1, grid1, tc1, wc1, s1) =>
        outerLoop timersId important w h endp fuel (x + 1) y1 grid1 tc1 wc1 s1
    else .ok (x, y, grid, tc, wc, s)

/-! ## World.Load and LoadTiles: section-boundary behavior -/

/-- Warnings surfaced by warn() during tile loading. -/
inductive LoadWarning where
  | overread
  | incompleteSection
deriving DecidableEq

/-- The end-of-section diagnostics at the bottom of World.LoadTiles
(lines 570-577): warn when the position passed the section end, or when
the section was consumed exactly but the grid is incomplete.  An underread
with a complete grid produces no warning.  (The byte count printed in the
overread message is end minus pos, which is negative there; only the
emission of the warning is modelled.) -/
def loadTilesEndWarnings (pos endp x y w h : Nat) : List LoadWarning :=
  if pos > endp then [.overread]
  else if pos = endp ∧ (x < w ∨ y < h) then [.incompleteSection]
  else []

/-- The section boundary treatment after the tile grid: LoadTiles emits
its end-of-section warnings, and World.Load then runs
assert pos equals GetChestsPointer() (the same pointer as the tile
section end), which raises AssertionError on any mismatch. -/
def afterTilesBoundary (pos endp x y w h : Nat) :
    List LoadWarning × Except PyErr Unit :=
  (loadTilesEndWarnings pos endp x y w h,
   if pos = endp then .ok () else .error .assertionError)

/-! ## World.LoadTiles: reference-level model of the RLE run write

Python lists hold references; tiles equal within a run are either the
same object (read-only mode) or freshly copied objects (mutable mode).
The heap is a list of tile values addressed by index, the grid is a list
of addresses, and copy.copy allocates a fresh address carrying the same
value. -/

/-- The while rle greater than zero loop of LoadTiles (lines 559-567) at
reference level, iterated once per unit of the count: in read-only mode
the same address is stored into the next cell of the column; otherwise a
fresh copy of the original tile is allocated and its address stored. -/
def rleRefLoopAux : Nat → Bool → List TileData → List Nat → Nat → Nat →
    Nat → Nat → Except PyErr (List TileData × List Nat × Nat × Nat)
  | 0, _, heap, grid, _, y, i, _ => .ok (heap, grid, y, i)
  | k + 1, ro, heap, grid, w, y, i, addr =>
    if ro then
      match listSetChecked grid (i + w) addr with
      | .error e => .error e
      | .ok grid1 => rleRefLoopAux k ro heap grid1 w (y + 1) (i + w) addr
    else
      let fresh := heap.length
      let heap1 := heap ++ [heap.getD addr default]
      match listSetChecked grid (i + w) fresh with
      | .error e => .error e
      | .ok grid1 => rleRefLoopAux k ro heap1 grid1 w (y + 1) (i + w) addr

/-- The run loop with its Python count: it executes max(rle, 0) times. -/
def rleRefLoop (ro : Bool) (heap : List TileData) (grid : List Nat)
    (w y i addr : Nat) (rle : Int) :
    Except PyErr (List TileData × List Nat × Nat × Nat) :=
  rleRefLoopAux rle.toNat ro heap grid w y i addr

/-- The whole run write of LoadTiles at reference level: the decoded tile
(living at addr) is stored at the current cell (line 558), then the run
is expanded down the column per the read-only flag. -/
def tileRunWriteRef (ro : Bool) (heap : List TileData) (grid : List Nat)
    (w y i addr : Nat) (rle : Int) :
    Except PyErr (List TileData × List Nat × Nat × Nat) :=
  match listSetChecked grid i addr with
  | .error e => .error e
  | .ok grid1 => rleRefLoop ro heap grid1 w y i addr rle

/-- The tile value observed through a grid cell: the heap entry its stored
address refers to. -/
def cellValue (heap : List TileData) (grid : List Nat) (p : Nat) :
    Option TileData :=
  heap[grid.getD p 0]?

/-- Mutating the tile object referenced by one grid cell: the heap entry
behind the cell's address is replaced. -/
def mutateCell (heap : List TileData) (grid : List Nat) (p : Nat)
    (t2 : TileData) : List TileData :=
  heap.set (grid.getD p 0) t2

/-! ## Chest.py and World.LoadChests -/

/-- Chest.MAX_ITEMS. -/
def MAX_ITEMS : Nat := 50

/-- Item.Item as stored by Chest.Set (the source field prefix is named
pfx here because the word is reserved in this development). -/
structure ChestItem where
  itemId : Int
  pfx : Nat
  stack : Int
deriving DecidableEq

/-- Chest.Chest: name, position, fifty regular item slots and the
overflow list. -/
structure ChestData where
  name : List Nat
  x : Int
  y : Int
  items : List (Option ChestItem)
  overflowItems : List ((Int × Nat) × Int)
deriving DecidableEq

/-- Chest.__init__: fifty empty slots and an empty overflow list. -/
def chestInit (name : List Nat) (x y : Int) : ChestData :=
  ⟨name, x, y, List.replicate 50 none, []⟩

/-- The slot budget computed by World.LoadChests (lines 587-591):
itemsPerChest starts at maxItems with no overflow; when maxItems is at
least Chest.MAX_ITEMS, itemsPerChest is clamped to MAX_ITEMS and the
remainder overflows. -/
def chestSlotCounts (maxItems : Nat) : Nat × Nat :=
  if maxItems ≥ MAX_ITEMS then (MAX_ITEMS, maxItems - MAX_ITEMS)
  else (maxItems, 0)

/-- The regular slot loop of one chest: per slot read a 16-bit stack and,
when positive, the item id and prefix, storing them via Chest.Set. -/
def loadChestSlots : Nat → Nat → ChestData → BStream →
    Except PyErr (ChestData × BStream)
  | 0, _, c, s => .ok (c, s)
  | n + 1, slot, c, s => do
    let (stack, s) ← readInt16 s
    if stack > 0 then do
      let (item, s) ← readInt32 s
      let (pfx, s) ← readUInt8 s
      let items ← listSetChecked c.items slot (some ⟨item, pfx, stack⟩)
      loadChestSlots n (slot + 1) { c with items := items } s
    else loadChestSlots n (slot + 1) c s

/-- The overflow slot loop of one chest: identical reads, but positive
stacks are appended to the chest's overflow list. -/
def loadOverflowSlots : Nat → ChestData → BStream →
    Except PyErr (ChestData × BStream)
  | 0, c, s => .ok (c, s)
  | n + 1, c, s => do
    let (stack, s) ← readInt16 s
    if stack > 0 then do
      let (item, s) ← readInt32 s
      let (pfx, s) ← readUInt8 s
      loadOverflowSlots n
        { c with overflowItems := c.overflowItems ++ [((item, pfx), stack)] } s
    else loadOverflowSlots n c s

/-- The per-chest loop of World.LoadChests: position, name, the regular
slots, then the overflow slots. -/
def loadChestList : Nat → Nat → Nat → List ChestData → BStream →
    Except PyErr (List ChestData × BStream)
  | 0, _, _, acc, s => .ok (acc, s)
  | n + 1, itemsPerChest, overflowItems, acc, s => do
    let (x, s) ← readInt32 s
    let (y, s) ← readInt32 s
    let (name, s) ← readString s
    let c := chestInit name x y
    let (c, s) ← loadChestSlots itemsPerChest 0 c s
    let (c, s) ← loadOverflowSlots overflowItems c s
    loadChestList n itemsPerChest overflowItems (acc ++ [c]) s

/-- World.LoadChests, from the point after the seek to the chests
pointer: total and maxItems counts, the slot budget, then the chests. -/
def loadChests (s0 : BStream) : Except PyErr (List ChestData × BStream) := do
  let (totalChests, s) ← readUInt16 s0
  let (maxItems, s) ← readUInt16 s
  let (itemsPerChest, overflowItems) := chestSlotCounts maxItems
  loadChestList totalChests itemsPerChest overflowItems [] s

/-- The all-zero tile and wall counters World.__init__ starts with. -/
def zeroCounts : Nat → Int := fun _ => 0

/-! ## MapFile.py: Map.TileToLookup

The per-type rules compare tile.Type and tile.Wall against constants from
IDs.py; that module is not among the sources at hand, so the identifiers
are abstracted into records of distinct numeric codes. -/

/-- The tile-type identifiers from IDs.py used by Map.TileToLookup and
Tile.FromStream. -/
structure TileIDs where
  DemonAltar : Nat
  Sunflower : Nat
  Pots : Nat
  ShadowOrbs : Nat
  LongMoss : Nat
  SmallPiles : Nat
  LargePiles : Nat
  LargePiles2 : Nat
  ImmatureHerbs : Nat
  MatureHerbs : Nat
  BloomingHerbs : Nat
  AdamantiteForge : Nat
  MythrilAnvil : Nat
  PressurePlates : Nat
  Painting3X3 : Nat
  Painting6X4 : Nat
  Torches : Nat
  Containers : Nat
  Statues : Nat
  HolidayLights : Nat
  RainbowBrick : Nat
  Stalactite : Nat
  ExposedGems : Nat
  DyePlants : Nat
  Timers : Nat
deriving DecidableEq

/-- Modelled from the spec: the numeric values of the tile identifiers
live in the missing module IDs.py; the spec names the types without
their numbers, so distinct placeholder codes are assigned here. -/
def specTileIDs : TileIDs :=
  ⟨1, 2, 3, 4, 5, 6, 7, 8, 9, 10, 11, 12, 13, 14, 15, 16, 17, 18, 19, 20,
   21, 22, 23, 24, 25⟩

/-- The wall identifiers from IDs.py used by Map.TileToLookup. -/
structure WallIDs where
  Planked : Nat
  PurpleStainedGlass : Nat
  YellowStainedGlass : Nat
  BlueStainedGlass : Nat
  GreenStainedGlass : Nat
  RedStainedGlass : Nat
  Glass : Nat
  Confetti : Nat
deriving DecidableEq

/-- Modelled from the spec: distinct placeholder codes for the wall
identifiers of the missing IDs.py. -/
def specWallIDs : WallIDs := ⟨1, 2, 3, 4, 5, 6, 7, 8⟩

/-- Map.LOOKUP_NONE. -/
def LOOKUP_NONE : Nat := 0

/-- Map.LOOKUP_TILE. -/
def LOOKUP_TILE : Nat := 1

/-- Map.LOOKUP_LIQUID. -/
def LOOKUP_LIQUID : Nat := 2

/-- Map.LOOKUP_WALL. -/
def LOOKUP_WALL : Nat := 3

/-- Map.LOOKUP_SKY. -/
def LOOKUP_SKY : Nat := 4

/-- Map.LOOKUP_DIRT. -/
def LOOKUP_DIRT : Nat := 5

/-- Map.LOOKUP_ROCK. -/
def LOOKUP_ROCK : Nat := 6

/-- MapFile._clamp (total on its call sites, where low is at most high).
Python integer division in the option rules is floor division, which for
the positive divisors used here is Int.ediv. -/
def clampPy (uv low high : Int) : Int :=
  if low ≤ uv ∧ uv ≤ high then uv
  else if uv < low then low
  else high

/-- The Pots branch of Map.TileToLookup (lines 217-242), including the
chained comparison 900 less than V less than 1008 inside the third
condition. -/
def potsOption (v : Int) : Int :=
  if v < 144 then 0
  else if v < 252 then 1
  else if v < 360 ∨ (900 < v ∧ v < 1008) then 2
  else if v < 468 then 3
  else if v < 576 then 4
  else if v < 648 then 5
  else if v < 792 then 6
  else if v < 898 then 8
  else if v < 1006 then 7
  else if v < 1114 then 0
  else if v < 1222 then 3
  else 7

/-- The SmallPiles branch: two v-bands with separate u mappings. -/
def smallPilesOption (uu v : Int) : Int :=
  if v < 18 then
    let u := Int.ediv uu 18
    if u < 6 ∨ (28 ≤ u ∧ u ≤ 32) then 0
    else if u < 22 ∨ (33 ≤ u ∧ u ≤ 35) then 1
    else if u < 28 then 2
    else if u < 48 then 3
    else if u < 54 then 4
    else 0
  else
    let u := Int.ediv uu 36
    if u < 6 ∨ (19 ≤ u ∧ u ≤ 24) ∨ u = 33 ∨ (38 ≤ u ∧ u ≤ 40) then 0
    else if u < 16 then 2
    else if u < 19 ∨ (31 ≤ u ∧ u ≤ 32) then 1
    else if u < 31 then 3
    else if u < 38 then 4
    else 0

/-- The LargePiles branch. -/
def largePilesOption (uu : Int) : Int :=
  let u := Int.ediv uu 54
  if u < 7 then 2
  else if u < 22 ∨ u = 33 ∨ u = 34 ∨ u = 35 then 0
  else if u < 25 then 1
  else if u = 25 then 5
  else if u < 32 then 3
  else 0

/-- The LargePiles2 branch (the source literally has the duplicated
option 4 arms). -/
def largePiles2Option (uu : Int) : Int :=
  let u := Int.ediv uu 54
  if u < 3 ∨ u = 14 ∨ u = 15 ∨ u = 16 then 0
  else if u < 6 then 6
  else if u < 9 then 7
  else if u < 14 then 4
  else if u < 18 then 4
  else if u < 23 then 8
  else if u < 25 then 0
  else if u < 29 then 1
  else 0

/-- The Painting3X3 branch. -/
def painting3x3Option (uu v : Int) : Int :=
  let u := Int.ediv uu 54 + Int.ediv v 54 * 36
  if (0 ≤ u ∧ u ≤ 11) ∨ (47 ≤ u ∧ u ≤ 53) then 0
  else if (12 ≤ u ∧ u ≤ 15) ∨ (18 ≤ u ∧ u ≤ 35) then 1
  else if 16 ≤ u ∧ u ≤ 17 then 2
  else if 41 ≤ u ∧ u ≤ 45 then 3
  else if u = 46 then 4
  else 0

/-- The Containers branch. -/
def containersOption (uu : Int) : Int :=
  let u := Int.ediv uu 36
  if u = 1 ∨ u = 2 ∨ u = 10 ∨ u = 13 ∨ u = 15 then 1
  else if u = 3 ∨ u = 4 then 2
  else if u = 6 then 3
  else if u = 11 ∨ u = 17 then 4
  else 0

/-- The Stalactite branch. -/
def stalactiteOption (u : Int) : Int :=
  if u < 54 then 0
  else if u < 106 ∨ u ≥ 216 then 1
  else if u ≥ 162 then 3
  else 2

/-- The per-type option resolution of case 1 of Map.TileToLookup: the
elif chain over tile.Type with option starting at zero.  The separate
RainbowBrick test at the top of the source only sets the unused extra
variable and is omitted; the RainbowBrick arm inside the chain (j mod 3)
is modelled.  j is the optional vertical coordinate. -/
def tileOption (ids : TileIDs) (t : TileData) (j : Option Nat) : Int :=
  if t.TypeId = ids.DemonAltar then (if t.U ≥ 54 then 1 else 0)
  else if t.TypeId = ids.Sunflower then (if t.U < 34 then 1 else 0)
  else if t.TypeId = ids.Pots then potsOption t.V
  else if t.TypeId = ids.ShadowOrbs then (if t.U ≥ 36 then 1 else 0)
  else if t.TypeId = ids.LongMoss then clampPy (Int.ediv t.U 22) 0 5
  else if t.TypeId = ids.SmallPiles then smallPilesOption t.U t.V
  else if t.TypeId = ids.LargePiles then largePilesOption t.U
  else if t.TypeId = ids.LargePiles2 then largePiles2Option t.U
  else if t.TypeId = ids.ImmatureHerbs ∨ t.TypeId = ids.MatureHerbs ∨
      t.TypeId = ids.BloomingHerbs then clampPy (Int.ediv t.U 18) 0 6
  else if t.TypeId = ids.AdamantiteForge then (if t.U ≥ 52 then 1 else 0)
  else if t.TypeId = ids.MythrilAnvil then (if t.U ≥ 28 then 1 else 0)
  else if t.TypeId = ids.PressurePlates then (if t.U ≠ 0 then 1 else 0)
  else if t.TypeId = ids.Painting3X3 then painting3x3Option t.U t.V
  else if t.TypeId = ids.Painting6X4 then
    (if 22 ≤ Int.ediv t.V 72 ∧ Int.ediv t.V 72 ≤ 24 then 1 else 0)
  else if t.TypeId = ids.Torches then 0
  else if t.TypeId = ids.Containers then containersOption t.U
  else if t.TypeId = ids.Statues then
    (if 1548 ≤ t.U ∧ t.U ≤ 1654 then 1
     else if 1656 ≤ t.U ∧ t.U ≤ 1798 then 2
     else 0)
  else if t.TypeId = ids.HolidayLights then
    (match j with | some jj => ((jj % 3 : Nat) : Int) | none => 0)
  else if t.TypeId = ids.RainbowBrick then
    (match j with | some jj => ((jj % 3 : Nat) : Int) | none => 0)
  else if t.TypeId = ids.Stalactite then stalactiteOption t.U
  else if t.TypeId = ids.ExposedGems then clampPy (Int.ediv t.U 18) 0 6
  else if t.TypeId = ids.DyePlants then Int.ediv t.U 34
  else 0

/-- Map.TileToLookup: the tile-to-color-descriptor cascade.  A descriptor
is (lookup table id, lookup index, option).  Case 1 carries the source's
assert option below len(tileLookup[tile.Type]): every row of tileLookup
has MaxTileOpts = 12 entries, and indexing the 419-row table with a
larger type raises IndexError.  The missing-tiles and missing-walls sets
and the ground level, rock level and world height are the Map object's
state, passed as parameters. -/
def tileToLookup (tids : TileIDs) (wids : WallIDs)
    (missingTiles missingWalls : List Nat)
    (groundLevel rockLevel height : Int)
    (t : TileData) (i j : Option Nat)
    (tT tW tL tB : Bool) :
    Except PyErr (Nat × Int × Int) :=
  if t.IsActive = true ∧ ¬ t.TypeId ∈ missingTiles ∧ tT = false then
    let option := tileOption tids t j
    if t.TypeId < 419 then
      if option < 12 then .ok (LOOKUP_TILE, (t.TypeId : Int), option)
      else .error .assertionError
    else .error .indexError
  else if t.LiquidType ≠ 0 ∧ t.LiquidAmount > 32 ∧ tL = false then
    .ok (LOOKUP_LIQUID, (t.LiquidType : Int), 0)
  else if t.Wall ≠ 0 ∧ ¬ t.Wall ∈ missingWalls ∧ tW = false then
    let option : Int :=
      if t.Wall = wids.Planked ∧ i.isSome then ((i.getD 0 % 2 : Nat) : Int)
      else if t.Wall = wids.PurpleStainedGlass ∨
          t.Wall = wids.YellowStainedGlass ∨
          t.Wall = wids.BlueStainedGlass ∨
          t.Wall = wids.GreenStainedGlass ∨
          t.Wall = wids.RedStainedGlass ∨
          t.Wall = wids.Glass ∨ t.Wall = wids.Confetti then 0
      else 0
    .ok (LOOKUP_WALL, (t.Wall : Int), option)
  else if i.isSome ∧ j.isSome ∧ tB = false then
    if ((j.getD 0 : Nat) : Int) < groundLevel then .ok (LOOKUP_SKY, 0, 0)
    else if ((j.getD 0 : Nat) : Int) < rockLevel then .ok (LOOKUP_DIRT, 0, 0)
    else if ((j.getD 0 : Nat) : Int) < height - 204 then
      .ok (LOOKUP_ROCK, 0, 0)
    else .ok (LOOKUP_ROCK, 1, 0)
  else .ok (LOOKUP_NONE, 0, 0)

/-! ## Claim C1: chest slot budget -/

/-- The slot loops preserve the fifty-slot layout of the items list: only
in-bounds set operations are performed. -/
lemma loadChestSlots_items_length :
    ∀ (n slot : Nat) (c : ChestData) (s : BStream) (c2 : ChestData)
      (s2 : BStream), loadChestSlots n slot c s = .ok (c2, s2) →
      c2.items.length = c.items.length := by
  intro n
  induction n with
  | zero =>
    intro slot c s c2 s2 h
    simp only [loadChestSlots, Except.ok.injEq, Prod.mk.injEq] at h
    rw [← h.1]
  | succ n ih =>
    intro slot c s c2 s2 h
    simp only [loadChestSlots] at h
    cases hr : readInt16 s with
    | error e =>
      rw [hr] at h
      simp only [bind, Except.bind] at h
      cases h
    | ok p =>
      obtain ⟨stack, s1⟩ := p
      rw [hr] at h
      simp only [bind, Except.bind] at h
      by_cases hs : stack > 0
      · rw [if_pos hs] at h
        cases hi : readInt32 s1 with
        | error e =>
          rw [hi] at h
          simp only [bind, Except.bind] at h
          cases h
        | ok q =>
          obtain ⟨item, s2a⟩ := q
          rw [hi] at h
          simp only [bind, Except.bind] at h
          cases hp : readUInt8 s2a with
          | error e =>
            rw [hp] at h
            simp only [bind, Except.bind] at h
            cases h
          | ok r =>
            obtain ⟨pfx, s3⟩ := r
            rw [hp] at h
            simp only [bind, Except.bind] at h
            cases hset : listSetChecked c.items slot
                (some ⟨item, pfx, stack⟩) with
            | error e =>
              rw [hset] at h
              simp only [bind, Except.bind] at h
              cases h
            | ok items1 =>
              rw [hset] at h
              simp only [bind, Except.bind] at h
              have hlen : items1.length = c.items.length := by
                unfold listSetChecked at hset
                by_cases hb : slot < c.items.length
                · rw [if_pos hb] at hset
                  simp only [Except.ok.injEq] at hset
                  rw [← hset, List.length_set]
                · rw [if_neg hb] at hset
                  cases hset
              have := ih (slot + 1) { c with items := items1 } s3 c2 s2 h
              simpa [hlen] using this
      · rw [if_neg hs] at h
        exact ih (slot + 1) c s1 c2 s2 h

/-- A chests section holding one chest with maxItems 45: the 41st slot
(index 40) carries a stack of one of item 7 with prefix 3, every other
slot is empty. -/
def c1Buffer : List Nat :=
  [1, 0] ++ [45, 0] ++ [0, 0, 0, 0] ++ [0, 0, 0, 0] ++ [0] ++
    List.replicate 80 0 ++ [1, 0, 7, 0, 0, 0, 3] ++ List.replicate 8 0

/-- C1 counterexample: with maxItems 45 the code reads 45 regular slots
and no overflow slots, not the claimed min(45, 40) = 40 regular and
max(0, 45 - 40) = 5 overflow; in the decoded chest the 41st slot lands in
the regular items array, and the overflow list stays empty. -/
theorem C1_chest_slots_claim_counterexample :
    chestSlotCounts 45 = (45, 0) ∧
    decide (chestSlotCounts 45 = (min 45 40, max 0 (45 - 40))) = false ∧
    (loadChests ⟨c1Buffer, 0⟩).map
        (fun r => ((r.1.getD 0 (chestInit [] 0 0)).items.getD 40 none,
                   (r.1.getD 0 (chestInit [] 0 0)).overflowItems)) =
      .ok (some ⟨7, 3, 1⟩, []) := by
  refine ⟨by decide, by decide, by decide⟩

/-- C1 amended: for every value of maxItems the decoder reads
min(maxItems, 50) regular item slots per chest and max(0, maxItems - 50)
overflow slots per chest (Chest.MAX_ITEMS is 50), the regular layout of a
chest stays at fifty slots, and slot loading preserves it. -/
theorem C1_chest_slots_amended :
    (∀ maxItems : Nat, chestSlotCounts maxItems =
        (min maxItems MAX_ITEMS, maxItems - MAX_ITEMS)) ∧
    (chestInit [] 0 0).items.length = 50 ∧
    (∀ (n slot : Nat) (c : ChestData) (s : BStream) (c2 : ChestData)
        (s2 : BStream), loadChestSlots n slot c s = .ok (c2, s2) →
        c2.items.length = c.items.length) := by
  refine ⟨?_, by decide, loadChestSlots_items_length⟩
  intro m
  unfold chestSlotCounts MAX_ITEMS
  rcases le_or_lt 50 m with h | h
  · rw [if_pos (by omega)]
    have hm : min m 50 = 50 := by omega
    rw [hm]
  · rw [if_neg (by omega)]
    have hm : min m 50 = m := by omega
    have hs : m - 50 = 0 := by omega
    rw [hm, hs]

/-- Witness for C1: the slot-length preservation applied to an empty
two-slot run over a concrete stream. -/
theorem C1_chest_slots_amended_witness :
    (chestInit [] 0 0).items.length = (chestInit [] 0 0).items.length :=
  C1_chest_slots_amended.2.2 2 0 (chestInit [] 0 0) ⟨[0, 0, 0, 0], 0⟩
    (chestInit [] 0 0) ⟨[0, 0, 0, 0], 4⟩ (by decide)

/-! ## Claim C3: section-pointer drift -/

/-- C3 counterexample: a complete tile grid that stopped two bytes short
of the chests pointer.  The claim says the decoder warns and continues at
the declared pointer; the code emits no warning in this situation and
World.Load raises AssertionError, aborting the load. -/
theorem C3_drift_claim_counterexample :
    (afterTilesBoundary 10 12 5 5 5 5).2 = .error .assertionError ∧
    (afterTilesBoundary 10 12 5 5 5 5).1 = [] ∧
    decide ((10 : Nat) = 12) = false := by
  refine ⟨by decide, by decide, by decide⟩

/-- C3 amended: section-pointer drift after the tile grid is fatal.
Whenever the position after decoding the tiles differs from
section_pointers at CHESTS, LoadTiles warns only in the overread case
(position past the section end; an underread is silent), and World.Load
then fails its assertion instead of continuing at the declared pointer. -/
theorem C3_drift_is_fatal :
    ∀ (pos endp x y w h : Nat), pos ≠ endp →
      (afterTilesBoundary pos endp x y w h).2 = .error .assertionError ∧
      (pos > endp →
        (afterTilesBoundary pos endp x y w h).1 = [.overread]) ∧
      (pos < endp → (afterTilesBoundary pos endp x y w h).1 = []) := by
  intro pos endp x y w h hne
  unfold afterTilesBoundary loadTilesEndWarnings
  refine ⟨by rw [if_neg hne], ?_, ?_⟩
  · intro hgt
    rw [if_pos hgt]
  · intro hlt
    rw [if_neg (by omega), if_neg (by omega)]

/-- Witness for C3: the fatality of drift applied at position 7 against
a declared pointer of 9. -/
theorem C3_drift_is_fatal_witness :
    (afterTilesBoundary 7 9 0 0 3 3).2 = .error .assertionError :=
  (C3_drift_is_fatal 7 9 0 0 3 3 (by decide)).1

/-! ## Run-write characterizations -/

/-- A successful run of the value-level RLE loop advances y and the flat
index by the iteration count, preserves the grid size, stores the tile in
every visited cell of the column, and leaves all other cells alone. -/
lemma rleLoopAux_ok_spec (w : Nat) (hw : 1 ≤ w) :
    ∀ (k : Nat) (grid : List (Option TileData)) (y i : Nat) (t : TileData)
      (g2 : List (Option TileData)) (y2 i2 : Nat),
      rleLoopAux k grid w y i t = .ok (g2, y2, i2) →
      y2 = y + k ∧ i2 = i + k * w ∧ g2.length = grid.length ∧
      (∀ d, 1 ≤ d → d ≤ k → g2[i + d * w]? = some (some t)) ∧
      (∀ p, (∀ d, 1 ≤ d → d ≤ k → p ≠ i + d * w) → g2[p]? = grid[p]?) := by
  intro k
  induction k with
  | zero =>
    intro grid y i t g2 y2 i2 h
    simp only [rleLoopAux, Except.ok.injEq, Prod.mk.injEq] at h
    obtain ⟨hg, hy, hi⟩ := h
    subst hg
    subst hy
    subst hi
    refine ⟨by omega, by omega, rfl, ?_, fun p _ => rfl⟩
    intro d h1 h2
    omega
  | succ k ih =>
    intro grid y i t g2 y2 i2 h
    simp only [rleLoopAux] at h
    cases hset : listSetChecked grid (i + w) (some t) with
    | error e =>
      rw [hset] at h
      cases h
    | ok grid1 =>
      rw [hset] at h
      have hb : i + w < grid.length := by
        unfold listSetChecked at hset
        by_cases hbb : i + w < grid.length
        · exact hbb
        · rw [if_neg hbb] at hset
          cases hset
      have hg1 : grid1 = grid.set (i + w) (some t) := by
        unfold listSetChecked at hset
        rw [if_pos hb] at hset
        simp only [Except.ok.injEq] at hset
        exact hset.symm
      obtain ⟨hy, hi, hlen, hcells, hframe⟩ := ih grid1 (y + 1) (i + w) t g2 y2 i2 h
      subst hg1
      refine ⟨by omega, ?_, ?_, ?_, ?_⟩
      · rw [hi]
        ring
      · rw [hlen, List.length_set]
      · intro d h1 h2
        by_cases hd : d = 1
        · subst hd
          rw [one_mul]
          rw [hframe (i + w) ?_]
          · exact List.getElem?_set_self hb
          · intro d1 hd1 hd2
            have hmul : 1 ≤ d1 * w := by
              have := Nat.mul_le_mul hd1 hw
              omega
            omega
        · have h1a : 1 ≤ d - 1 := by omega
          have h2a : d - 1 ≤ k := by omega
          have hc := hcells (d - 1) h1a h2a
          have harith : (i + w) + (d - 1) * w = i + d * w := by
            obtain ⟨e, rfl⟩ : ∃ e, d = e + 1 := ⟨d - 1, by omega⟩
            simp only [Nat.add_sub_cancel]
            ring
          rw [harith] at hc
          exact hc
      · intro p hp
        rw [hframe p ?_]
        · refine List.getElem?_set_ne ?_
          have := hp 1 (by omega) (by omega)
          rw [one_mul] at this
          omega
        · intro d1 hd1 hd2
          have := hp (d1 + 1) (by omega) (by omega)
          have harith : i + (d1 + 1) * w = (i + w) + d1 * w := by ring
          omega

/-- A successful read-only reference run leaves the heap untouched and
stores the same address into every visited cell of the column. -/
lemma rleRefLoopAux_ro_ok_spec (w : Nat) (hw : 1 ≤ w) :
    ∀ (k : Nat) (heap : List TileData) (grid : List Nat) (y i addr : Nat)
      (h2 : List TileData) (g2 : List Nat) (y2 i2 : Nat),
      rleRefLoopAux k true heap grid w y i addr = .ok (h2, g2, y2, i2) →
      h2 = heap ∧ y2 = y + k ∧ i2 = i + k * w ∧ g2.length = grid.length ∧
      (∀ d, 1 ≤ d → d ≤ k → g2[i + d * w]? = some addr) ∧
      (∀ p, (∀ d, 1 ≤ d → d ≤ k → p ≠ i + d * w) → g2[p]? = grid[p]?) := by
  intro k
  induction k with
  | zero =>
    intro heap grid y i addr h2 g2 y2 i2 h
    simp only [rleRefLoopAux, Except.ok.injEq, Prod.mk.injEq] at h
    obtain ⟨hh, hg, hy, hi⟩ := h
    subst hh
    subst hg
    subst hy
    subst hi
    refine ⟨rfl, by omega, by omega, rfl, ?_, fun p _ => rfl⟩
    intro d h1 h2
    omega
  | succ k ih =>
    intro heap grid y i addr h2 g2 y2 i2 h
    simp only [rleRefLoopAux, if_true] at h
    cases hset : listSetChecked grid (i + w) addr with
    | error e =>
      rw [hset] at h
      cases h
    | ok grid1 =>
      rw [hset] at h
      have hb : i + w < grid.length := by
        unfold listSetChecked at hset
        by_cases hbb : i + w < grid.length
        · exact hbb
        · rw [if_neg hbb] at hset
          cases hset
      have hg1 : grid1 = grid.set (i + w) addr := by
        unfold listSetChecked at hset
        rw [if_pos hb] at hset
        simp only [Except.ok.injEq] at hset
        exact hset.symm
      obtain ⟨hh, hy, hi, hlen, hcells, hframe⟩ :=
        ih heap grid1 (y + 1) (i + w) addr h2 g2 y2 i2 h
      subst hg1
      refine ⟨hh, by omega, ?_, ?_, ?_, ?_⟩
      · rw [hi]
        ring
      · rw [hlen, List.length_set]
      · intro d h1 h2
        by_cases hd : d = 1
        · subst hd
          rw [one_mul]
          rw [hframe (i + w) ?_]
          · exact List.getElem?_set_self hb
          · intro d1 hd1 hd2
            have hmul : 1 ≤ d1 * w := by
              have := Nat.mul_le_mul hd1 hw
              omega
            omega
        · have h1a : 1 ≤ d - 1 := by omega
          have h2a : d - 1 ≤ k := by omega
          have hc := hcells (d - 1) h1a h2a
          have harith : (i + w) + (d - 1) * w = i + d * w := by
            obtain ⟨e, rfl⟩ : ∃ e, d = e + 1 := ⟨d - 1, by omega⟩
            simp only [Nat.add_sub_cancel]
            ring
          rw [harith] at hc
          exact hc
      · intro p hp
        rw [hframe p ?_]
        · refine List.getElem?_set_ne ?_
          have := hp 1 (by omega) (by omega)
          rw [one_mul] at this
          omega
        · intro d1 hd1 hd2
          have := hp (d1 + 1) (by omega) (by omega)
          have harith : i + (d1 + 1) * w = (i + w) + d1 * w := by ring
          omega

/-- A successful mutable-mode reference run appends one fresh copy of the
original tile value per iteration and stores the consecutive fresh
addresses into the visited cells of the column. -/
lemma rleRefLoopAux_copy_ok_spec (w : Nat) (hw : 1 ≤ w) :
    ∀ (k : Nat) (heap : List TileData) (grid : List Nat) (y i addr : Nat),
      addr < heap.length →
      ∀ (h2 : List TileData) (g2 : List Nat) (y2 i2 : Nat),
      rleRefLoopAux k false heap grid w y i addr = .ok (h2, g2, y2, i2) →
      h2 = heap ++ List.replicate k (heap.getD addr default) ∧
      y2 = y + k ∧ i2 = i + k * w ∧ g2.length = grid.length ∧
      (∀ d, 1 ≤ d → d ≤ k →
        g2[i + d * w]? = some (heap.length + (d - 1))) ∧
      (∀ p, (∀ d, 1 ≤ d → d ≤ k → p ≠ i + d * w) → g2[p]? = grid[p]?) := by
  intro k
  induction k with
  | zero =>
    intro heap grid y i addr haddr h2 g2 y2 i2 h
    simp only [rleRefLoopAux, Except.ok.injEq, Prod.mk.injEq] at h
    obtain ⟨hh, hg, hy, hi⟩ := h
    subst hh
    subst hg
    subst hy
    subst hi
    refine ⟨by simp, by omega, by omega, rfl, ?_, fun p _ => rfl⟩
    intro d h1 h2
    omega
  | succ k ih =>
    intro heap grid y i addr haddr h2 g2 y2 i2 h
    simp only [rleRefLoopAux, Bool.false_eq_true, if_false] at h
    cases hset : listSetChecked grid (i + w) heap.length with
    | error e =>
      rw [hset] at h
      cases h
    | ok grid1 =>
      rw [hset] at h
      have hb : i + w < grid.length := by
        unfold listSetChecked at hset
        by_cases hbb : i + w < grid.length
        · exact hbb
        · rw [if_neg hbb] at hset
          cases hset
      have hg1 : grid1 = grid.set (i + w) heap.length := by
        unfold listSetChecked at hset
        rw [if_pos hb] at hset
        simp only [Except.ok.injEq] at hset
        exact hset.symm
      have haddr1 : addr < (heap ++ [heap.getD addr default]).length := by
        simp only [List.length_append, List.length_singleton]
        omega
      obtain ⟨hh, hy, hi, hlen, hcells, hframe⟩ :=
        ih (heap ++ [heap.getD addr default]) grid1 (y + 1) (i + w) addr
          haddr1 h2 g2 y2 i2 h
      subst hg1
      have hval : (heap ++ [heap.getD addr default]).getD addr default =
          heap.getD addr default := by
        rw [List.getD_eq_getElem?_getD, List.getElem?_append_left haddr,
            ← List.getD_eq_getElem?_getD]
      refine ⟨?_, by omega, ?_, ?_, ?_, ?_⟩
      · rw [hh, hval, List.append_assoc, List.replicate_succ]
        rfl
      · rw [hi]
        ring
      · rw [hlen, List.length_set]
      · intro d h1 h2
        by_cases hd : d = 1
        · subst hd
          rw [one_mul]
          rw [hframe (i + w) ?_]
          · have : (heap.length + (1 - 1)) = heap.length := by omega
            rw [this]
            exact List.getElem?_set_self hb
          · intro d1 hd1 hd2
            have hmul : 1 ≤ d1 * w := by
              have := Nat.mul_le_mul hd1 hw
              omega
            omega
        · have h1a : 1 ≤ d - 1 := by omega
          have h2a : d - 1 ≤ k := by omega
          have hc := hcells (d - 1) h1a h2a
          have harith : (i + w) + (d - 1) * w = i + d * w := by
            obtain ⟨e, rfl⟩ : ∃ e, d = e + 1 := ⟨d - 1, by omega⟩
            simp only [Nat.add_sub_cancel]
            ring
          have hlenapp : (heap ++ [heap.getD addr default]).length =
              heap.length + 1 := by
            simp
          rw [harith, hlenapp] at hc
          have haddrarith : heap.length + 1 + (d - 1 - 1) =
              heap.length + (d - 1) := by omega
          rw [haddrarith] at hc
          exact hc
      · intro p hp
        rw [hframe p ?_]
        · refine List.getElem?_set_ne ?_
          have := hp 1 (by omega) (by omega)
          rw [one_mul] at this
          omega
        · intro d1 hd1 hd2
          have := hp (d1 + 1) (by omega) (by omega)
          have harith : i + (d1 + 1) * w = (i + w) + d1 * w := by ring
          omega

/-- Destructuring a successful whole-run write: the first cell write was
in bounds and the loop ran on the updated grid. -/
lemma tileRunWriteRef_ok_elim (ro : Bool) (heap : List TileData)
    (grid : List Nat) (w y i addr : Nat) (rle : Int) (h2 : List TileData)
    (g2 : List Nat) (y2 i2 : Nat)
    (h : tileRunWriteRef ro heap grid w y i addr rle = .ok (h2, g2, y2, i2)) :
    i < grid.length ∧
    rleRefLoopAux rle.toNat ro heap (grid.set i addr) w y i addr =
      .ok (h2, g2, y2, i2) := by
  unfold tileRunWriteRef at h
  cases hset : listSetChecked grid i addr with
  | error e =>
    rw [hset] at h
    cases h
  | ok grid1 =>
    rw [hset] at h
    have hb : i < grid.length := by
      unfold listSetChecked at hset
      by_cases hbb : i < grid.length
      · exact hbb
      · rw [if_neg hbb] at hset
        cases hset
    have hg1 : grid1 = grid.set i addr := by
      unfold listSetChecked at hset
      rw [if_pos hb] at hset
      simp only [Except.ok.injEq] at hset
      exact hset.symm
    subst hg1
    exact ⟨hb, h⟩

/-- C7: read-only versus copied RLE runs.  In read-only mode all
rle plus one grid cells of one run store the same heap address, so
mutating the object behind any one cell makes every cell of the run
observe the new value; in mutable mode every cell of the run is a
distinct copy holding the original tile value, so mutating one cell
leaves the value observed through every other cell unchanged. -/
theorem C7_readonly_sharing_vs_copy :
    (∀ (k : Nat) (heap : List TileData) (grid : List Nat) (w y i addr : Nat)
        (h2 : List TileData) (g2 : List Nat) (y2 i2 : Nat),
        1 ≤ w → addr < heap.length →
        tileRunWriteRef true heap grid w y i addr (k : Int) =
          .ok (h2, g2, y2, i2) →
        (∀ d, d ≤ k → g2.getD (i + d * w) 0 = addr) ∧
        (∀ (t2 : TileData) (d0 d : Nat), d0 ≤ k → d ≤ k →
          cellValue (mutateCell h2 g2 (i + d0 * w) t2) g2 (i + d * w) =
            some t2)) ∧
    (∀ (k : Nat) (heap : List TileData) (grid : List Nat) (w y i addr : Nat)
        (h2 : List TileData) (g2 : List Nat) (y2 i2 : Nat),
        1 ≤ w → addr < heap.length →
        tileRunWriteRef false heap grid w y i addr (k : Int) =
          .ok (h2, g2, y2, i2) →
        (∀ d, d ≤ k → cellValue h2 g2 (i + d * w) =
            some (heap.getD addr default)) ∧
        (∀ (t2 : TileData) (d0 d : Nat), d0 ≤ k → d ≤ k → d ≠ d0 →
          cellValue (mutateCell h2 g2 (i + d0 * w) t2) g2 (i + d * w) =
            cellValue h2 g2 (i + d * w))) := by
  constructor
  · intro k heap grid w y i addr h2 g2 y2 i2 hw haddr hrun
    obtain ⟨hib, hloop⟩ := tileRunWriteRef_ok_elim true heap grid w y i addr
      (k : Int) h2 g2 y2 i2 hrun
    rw [Int.toNat_natCast] at hloop
    obtain ⟨hh, hy, hi2, hlen, hcells, hframe⟩ :=
      rleRefLoopAux_ro_ok_spec w hw k heap (grid.set i addr) y i addr
        h2 g2 y2 i2 hloop
    subst hh
    have haddrs : ∀ d, d ≤ k → g2.getD (i + d * w) 0 = addr := by
      intro d hd
      rw [List.getD_eq_getElem?_getD]
      by_cases hd0 : d = 0
      · subst hd0
        simp only [Nat.zero_mul, Nat.add_zero]
        rw [hframe i ?_]
        · rw [List.getElem?_set_self hib]
          rfl
        · intro d1 hd1 hd2
          have hmul : 1 ≤ d1 * w := by
            have := Nat.mul_le_mul hd1 hw
            omega
          omega
      · rw [hcells d (by omega) hd]
        rfl
    refine ⟨haddrs, ?_⟩
    intro t2 d0 d hd0 hd
    unfold cellValue mutateCell
    rw [haddrs d0 hd0, haddrs d hd]
    rw [List.getElem?_set_self haddr]
  · intro k heap grid w y i addr h2 g2 y2 i2 hw haddr hrun
    obtain ⟨hib, hloop⟩ := tileRunWriteRef_ok_elim false heap grid w y i addr
      (k : Int) h2 g2 y2 i2 hrun
    rw [Int.toNat_natCast] at hloop
    obtain ⟨hh, hy, hi2, hlen, hcells, hframe⟩ :=
      rleRefLoopAux_copy_ok_spec w hw k heap (grid.set i addr) y i addr haddr
        h2 g2 y2 i2 hloop
    have haddrs : ∀ d, d ≤ k → g2.getD (i + d * w) 0 =
        (if d = 0 then addr else heap.length + (d - 1)) := by
      intro d hd
      rw [List.getD_eq_getElem?_getD]
      by_cases hd0 : d = 0
      · subst hd0
        simp only [Nat.zero_mul, Nat.add_zero, if_pos]
        rw [hframe i ?_]
        · rw [List.getElem?_set_self hib]
          rfl
        · intro d1 hd1 hd2
          have hmul : 1 ≤ d1 * w := by
            have := Nat.mul_le_mul hd1 hw
            omega
          omega
      · rw [if_neg hd0, hcells d (by omega) hd]
        rfl
    have hlen2 : h2.length = heap.length + k := by
      rw [hh, List.length_append, List.length_replicate]
    have hvals : ∀ d, d ≤ k →
        h2[(if d = 0 then addr else heap.length + (d - 1) : Nat)]? =
          some (heap.getD addr default) := by
      intro d hd
      by_cases hd0 : d = 0
      · subst hd0
        rw [if_pos rfl, hh, List.getElem?_append_left haddr,
            List.getElem?_eq_getElem haddr, List.getD_eq_getElem?_getD,
            List.getElem?_eq_getElem haddr]
        rfl
      · rw [if_neg hd0, hh,
            List.getElem?_append_right (by omega : heap.length ≤ heap.length + (d - 1))]
        simp only [Nat.add_sub_cancel_left, List.getElem?_replicate]
        rw [if_pos (by omega)]
    refine ⟨?_, ?_⟩
    · intro d hd
      unfold cellValue
      rw [haddrs d hd]
      exact hvals d hd
    · intro t2 d0 d hd0 hd hne
      unfold cellValue mutateCell
      rw [haddrs d0 hd0, haddrs d hd]
      rw [List.getElem?_set_ne ?_]
      by_cases h0 : d = 0 <;> by_cases h00 : d0 = 0
      · omega
      · rw [if_pos h0, if_neg h00]
        omega
      · rw [if_neg h0, if_pos h00]
        omega
      · rw [if_neg h0, if_neg h00]
        omega

/-- Witness for C7: the read-only sharing conclusion applied to a
concrete three-cell column run of length two: after mutating the object
behind the middle cell, the last cell of the run observes the new value. -/
theorem C7_readonly_sharing_vs_copy_witness :
    cellValue
        (mutateCell [({} : TileData)] [0, 0, 0] (0 + 1 * 1)
          { IsActive := true })
        [0, 0, 0] (0 + 2 * 1) = some { IsActive := true } :=
  (C7_readonly_sharing_vs_copy.1 2 [({} : TileData)] [5, 5, 5] 1 0 0 0
      [({} : TileData)] [0, 0, 0] 2 2 (by decide) (by decide)
      (by decide)).2 { IsActive := true } 1 2 (by decide) (by decide)

/-- Destructuring a successful tile step: the final stream is the one the
codec left, the counters are bumped by max(rle, 1) for active tiles and
nonzero walls, the first cell write was in bounds, and the run loop ran
on the updated grid with y advancing once more afterwards. -/
lemma tileStep_ok_elim
    (timersId : Nat) (important : List Bool) (w x y : Nat)
    (grid : List (Option TileData)) (tc wc : Nat → Int) (s : BStream)
    (t : TileData) (rle : Int) (s1 : BStream)
    (grid2 : List (Option TileData)) (y2 : Nat) (tc2 wc2 : Nat → Int)
    (s2 : BStream)
    (hfs : fromStream timersId important s = .ok ((t, rle), s1))
    (hstep : tileStep timersId important w x y grid tc wc s =
      .ok (grid2, y2, tc2, wc2, s2)) :
    s2 = s1 ∧
    tc2 = (if t.IsActive then bumpCount tc t.TypeId (max rle 1) else tc) ∧
    wc2 = (if t.Wall ≠ 0 then bumpCount wc t.Wall (max rle 1) else wc) ∧
    y * w + x < grid.length ∧
    ∃ y2a i2a,
      rleLoopAux rle.toNat (grid.set (y * w + x) (some t)) w y (y * w + x) t
        = .ok (grid2, y2a, i2a) ∧ y2 = y2a + 1 := by
  unfold tileStep at hstep
  rw [hfs] at hstep
  simp only [bind, Except.bind] at hstep
  cases hset : listSetChecked grid (y * w + x) (some t) with
  | error e =>
    rw [hset] at hstep
    cases hstep
  | ok grid1 =>
    rw [hset] at hstep
    have hb : y * w + x < grid.length := by
      unfold listSetChecked at hset
      by_cases hbb : y * w + x < grid.length
      · exact hbb
      · rw [if_neg hbb] at hset
        cases hset
    have hg1 : grid1 = grid.set (y * w + x) (some t) := by
      unfold listSetChecked at hset
      rw [if_pos hb] at hset
      simp only [Except.ok.injEq] at hset
      exact hset.symm
    subst hg1
    unfold rleLoop at hstep
    dsimp only at hstep
    cases hloop : rleLoopAux rle.toNat (grid.set (y * w + x) (some t)) w y
        (y * w + x) t with
    | error e =>
      rw [hloop] at hstep
      cases hstep
    | ok r =>
      obtain ⟨g2a, y2a, i2a⟩ := r
      rw [hloop] at hstep
      simp only [pure, Except.pure, Except.ok.injEq, Prod.mk.injEq] at hstep
      obtain ⟨hga, hya, htc, hwc, hs⟩ := hstep
      refine ⟨hs.symm, htc.symm, hwc.symm, hb, y2a, i2a, ?_, hya.symm⟩
      rw [hga]

/-- Bytes of a record with the reserved-free i16 RLE width carrying a
negative count: header 0x80 (width field 2), then the two bytes of -1. -/
def c5Buffer : List Nat := [0x80, 0xff, 0xff]

/-- C5 counterexample: the record decoded from c5Buffer carries the count
k = -1, for which the claim promises k + 1 = 0 cells; the step writes the
single cell (x, y) nevertheless, so the grid changes where the claim
says no cell receives the tile. -/
theorem C5_rle_claim_counterexample :
    (fromStream 0 [] ⟨c5Buffer, 0⟩).map (fun p => (p.1, p.2.pos)) =
      .ok (({}, -1), 3) ∧
    (tileStep 0 [] 1 0 0 [none, none] zeroCounts zeroCounts
        ⟨c5Buffer, 0⟩).map (fun r => (r.1, r.2.1)) =
      .ok ([some {}, none], 1) ∧
    decide (([some ({} : TileData), none] : List (Option TileData)) =
      [none, none]) = false ∧
    decide ((1 : Int) = (-1) + 1) = false := by
  refine ⟨by decide, by decide, by decide, by decide⟩

/-- C5 amended: tile RLE expands down columns.  The grid is decoded with
x as the outer loop and y as the inner loop; for every decoded record
(t, k) with k nonnegative, exactly k + 1 consecutive cells of the current
column (same x, rows y through y + k) receive t, all other cells are
untouched, and y advances to y + k + 1; a record whose 16-bit count is
negative writes exactly the single cell (x, y).  The count is read as an
unsigned byte when the RLE-width field of header byte 1 equals 1, as a
signed 16-bit integer when it equals 2, and is 0 when the field equals 0. -/
theorem C5_rle_expands_down_columns :
    (∀ (h1 : Nat) (s : BStream), (h1 &&& MASK_HASRLE) >>> SHFT_RLE = 1 →
      readRLECount h1 s = (readUInt8 s).map (fun p => ((p.1 : Int), p.2))) ∧
    (∀ (h1 : Nat) (s : BStream), (h1 &&& MASK_HASRLE) >>> SHFT_RLE = 2 →
      readRLECount h1 s = readInt16 s) ∧
    (∀ (h1 : Nat) (s : BStream), (h1 &&& MASK_HASRLE) >>> SHFT_RLE = 0 →
      readRLECount h1 s = .ok (0, s)) ∧
    (∀ (timersId : Nat) (important : List Bool) (w x y : Nat)
        (grid : List (Option TileData)) (tc wc : Nat → Int) (s : BStream)
        (t : TileData) (rle : Int) (s1 : BStream)
        (grid2 : List (Option TileData)) (y2 : Nat) (tc2 wc2 : Nat → Int)
        (s2 : BStream),
        1 ≤ w → 0 ≤ rle →
        fromStream timersId important s = .ok ((t, rle), s1) →
        tileStep timersId important w x y grid tc wc s =
          .ok (grid2, y2, tc2, wc2, s2) →
        y2 = y + rle.toNat + 1 ∧ s2 = s1 ∧
        (∀ d, d ≤ rle.toNat → grid2[(y + d) * w + x]? = some (some t)) ∧
        (∀ p, (∀ d, d ≤ rle.toNat → p ≠ (y + d) * w + x) →
          grid2[p]? = grid[p]?)) ∧
    (∀ (timersId : Nat) (important : List Bool) (w x y : Nat)
        (grid : List (Option TileData)) (tc wc : Nat → Int) (s : BStream)
        (t : TileData) (rle : Int) (s1 : BStream)
        (grid2 : List (Option TileData)) (y2 : Nat) (tc2 wc2 : Nat → Int)
        (s2 : BStream),
        rle < 0 →
        fromStream timersId important s = .ok ((t, rle), s1) →
        tileStep timersId important w x y grid tc wc s =
          .ok (grid2, y2, tc2, wc2, s2) →
        y2 = y + 1 ∧ grid2 = grid.set (y * w + x) (some t)) ∧
    (∀ (timersId : Nat) (important : List Bool) (w h endp fuel x y : Nat)
        (grid : List (Option TileData)) (tc wc : Nat → Int) (s : BStream)
        (grid1 : List (Option TileData)) (y1 : Nat) (tc1 wc1 : Nat → Int)
        (s1 : BStream),
        y < h → s.pos < endp →
        tileStep timersId important w x y grid tc wc s =
          .ok (grid1, y1, tc1, wc1, s1) →
        innerLoop timersId important w h endp (fuel + 1) x y grid tc wc s =
          innerLoop timersId important w h endp fuel x y1 grid1 tc1 wc1 s1) ∧
    (∀ (timersId : Nat) (important : List Bool) (w h endp fuel x y : Nat)
        (grid : List (Option TileData)) (tc wc : Nat → Int) (s : BStream)
        (xr y1 : Nat) (grid1 : List (Option TileData)) (tc1 wc1 : Nat → Int)
        (s1 : BStream),
        x < w → s.pos < endp →
        innerLoop timersId important w h endp fuel x 0 grid tc wc s =
          .ok (xr, y1, grid1, tc1, wc1, s1) →
        outerLoop timersId important w h endp (fuel + 1) x y grid tc wc s =
          outerLoop timersId important w h endp fuel (x + 1) y1 grid1 tc1
            wc1 s1) := by
  refine ⟨?_, ?_, ?_, ?_, ?_, ?_, ?_⟩
  · intro h1 s hrt
    unfold readRLECount
    simp only [hrt]
    norm_num
    cases hr : readUInt8 s with
    | error e => simp [hr, Except.map]
    | ok p =>
      obtain ⟨v, s1⟩ := p
      simp [hr, Except.map]
  · intro h1 s hrt
    unfold readRLECount
    simp only [hrt]
    norm_num
  · intro h1 s hrt
    unfold readRLECount
    simp only [hrt]
    norm_num
  · intro timersId important w x y grid tc wc s t rle s1 grid2 y2 tc2 wc2 s2
      hw hnn hfs hstep
    obtain ⟨hs2, htc, hwc, hib, y2a, i2a, hloop, hy2⟩ :=
      tileStep_ok_elim timersId important w x y grid tc wc s t rle s1
        grid2 y2 tc2 wc2 s2 hfs hstep
    obtain ⟨hya, hia, hlen, hcells, hframe⟩ :=
      rleLoopAux_ok_spec w hw rle.toNat (grid.set (y * w + x) (some t)) y
        (y * w + x) t grid2 y2a i2a hloop
    refine ⟨by omega, hs2, ?_, ?_⟩
    · intro d hd
      have hidx : (y + d) * w + x = (y * w + x) + d * w := by ring
      rw [hidx]
      by_cases hd0 : d = 0
      · subst hd0
        simp only [Nat.zero_mul, Nat.add_zero]
        rw [hframe (y * w + x) ?_]
        · exact List.getElem?_set_self hib
        · intro d1 hd1 hd2
          have hmul : 1 ≤ d1 * w := by
            have := Nat.mul_le_mul hd1 hw
            omega
          omega
      · exact hcells d (by omega) hd
    · intro p hp
      rw [hframe p ?_]
      · refine List.getElem?_set_ne ?_
        have h0 := hp 0 (by omega)
        have he : (y + 0) * w + x = y * w + x := by ring
        omega
      · intro d1 hd1 hd2
        have := hp d1 (by omega)
        have he : (y + d1) * w + x = (y * w + x) + d1 * w := by ring
        omega
  · intro timersId important w x y grid tc wc s t rle s1 grid2 y2 tc2 wc2 s2
      hneg hfs hstep
    obtain ⟨hs2, htc, hwc, hib, y2a, i2a, hloop, hy2⟩ :=
      tileStep_ok_elim timersId important w x y grid tc wc s t rle s1
        grid2 y2 tc2 wc2 s2 hfs hstep
    have ht0 : rle.toNat = 0 := by omega
    rw [ht0] at hloop
    simp only [rleLoopAux, Except.ok.injEq, Prod.mk.injEq] at hloop
    obtain ⟨hg, hy, hi⟩ := hloop
    exact ⟨by omega, hg.symm⟩
  · intro timersId important w h endp fuel x y grid tc wc s grid1 y1 tc1
      wc1 s1 hy hpos hstep
    simp only [innerLoop]
    rw [if_pos ⟨hy, hpos⟩, hstep]
  · intro timersId important w h endp fuel x y grid tc wc s xr y1 grid1
      tc1 wc1 s1 hx hpos hinner
    simp only [outerLoop]
    rw [if_pos ⟨hx, hpos⟩, hinner]

/-- Witness for C5: the per-record column-write conclusion of the amended
claim applied to a concrete record (active type 5, u8 count 2) stepping
on a three-cell single-column grid: the middle cell of the run holds the
tile. -/
theorem C5_rle_expands_down_columns_witness :
    (([some { IsActive := true, TypeId := 5 },
       some { IsActive := true, TypeId := 5 },
       some { IsActive := true, TypeId := 5 }] :
        List (Option TileData)))[(0 + 1) * 1 + 0]? =
      some (some { IsActive := true, TypeId := 5 }) :=
  (C5_rle_expands_down_columns.2.2.2.1 0 [] 1 0 0 [none, none, none]
      zeroCounts zeroCounts ⟨[0x42, 5, 2], 0⟩
      { IsActive := true, TypeId := 5 } 2 ⟨[0x42, 5, 2], 3⟩
      [some { IsActive := true, TypeId := 5 },
       some { IsActive := true, TypeId := 5 },
       some { IsActive := true, TypeId := 5 }] 3
      (bumpCount zeroCounts 5 (max 2 1)) zeroCounts ⟨[0x42, 5, 2], 3⟩
      (by decide) (by decide) (by decide) (by rfl)).2.2.1 1 (by decide)

/-! ## Claim C10: per-type counts versus cells written -/

/-- C10 counterexample: the record 82 05 ff ff decodes to an active type-5
tile with count k = -1; the step adds max(k, 1) = 1 to the type count but
writes one grid cell, not k + 1 = 0 cells, so the claimed pairing of
max(k, 1) added against k + 1 cells written fails for negative counts. -/
theorem C10_counts_claim_counterexample :
    (fromStream 0 [] ⟨[0x82, 5, 0xff, 0xff], 0⟩).map
        (fun p => (p.1.1.IsActive, p.1.1.TypeId, p.1.2)) =
      .ok (true, 5, -1) ∧
    (tileStep 0 [] 1 0 0 [none, none] zeroCounts zeroCounts
        ⟨[0x82, 5, 0xff, 0xff], 0⟩).map
        (fun r => (r.2.2.1 5, r.2.1, r.1)) =
      .ok (1, 1, [some { IsActive := true, TypeId := 5 }, none]) ∧
    decide ((1 : Int) = (-1) + 1) = false := by
  refine ⟨by decide, by decide, by decide⟩

/-- C10 amended: the per-type tile and wall counts undercount RLE runs.
For every decoded record with run length k, the step adds max(k, 1) to
the active tile's type count and to the nonzero wall's count, while
writing k + 1 grid cells when k is nonnegative (one cell when k is
negative); hence for every record with k at least 1, the count
accumulated is exactly one less than the number of cells written. -/
theorem C10_tile_counts_undercount :
    ∀ (timersId : Nat) (important : List Bool) (w x y : Nat)
      (grid : List (Option TileData)) (tc wc : Nat → Int) (s : BStream)
      (t : TileData) (rle : Int) (s1 : BStream)
      (grid2 : List (Option TileData)) (y2 : Nat) (tc2 wc2 : Nat → Int)
      (s2 : BStream),
      1 ≤ w →
      fromStream timersId important s = .ok ((t, rle), s1) →
      tileStep timersId important w x y grid tc wc s =
        .ok (grid2, y2, tc2, wc2, s2) →
      (t.IsActive = true → tc2 t.TypeId = tc t.TypeId + max rle 1) ∧
      (t.IsActive = false → tc2 = tc) ∧
      (t.Wall ≠ 0 → wc2 t.Wall = wc t.Wall + max rle 1) ∧
      (t.Wall = 0 → wc2 = wc) ∧
      (0 ≤ rle → y2 = y + rle.toNat + 1 ∧
        (∀ d, d ≤ rle.toNat → grid2[(y + d) * w + x]? = some (some t))) ∧
      (rle < 0 → y2 = y + 1) ∧
      (1 ≤ rle → max rle 1 = (rle + 1) - 1) := by
  intro timersId important w x y grid tc wc s t rle s1 grid2 y2 tc2 wc2 s2
    hw hfs hstep
  obtain ⟨hs2, htc, hwc, hib, y2a, i2a, hloop, hy2⟩ :=
    tileStep_ok_elim timersId important w x y grid tc wc s t rle s1
      grid2 y2 tc2 wc2 s2 hfs hstep
  obtain ⟨hya, hia, hlen, hcells, hframe⟩ :=
    rleLoopAux_ok_spec w hw rle.toNat (grid.set (y * w + x) (some t)) y
      (y * w + x) t grid2 y2a i2a hloop
  refine ⟨?_, ?_, ?_, ?_, ?_, ?_, ?_⟩
  · intro hact
    rw [htc, if_pos hact]
    unfold bumpCount
    simp
  · intro hact
    rw [htc, if_neg (by simp [hact])]
  · intro hwall
    rw [hwc, if_pos hwall]
    unfold bumpCount
    simp
  · intro hwall
    rw [hwc, if_neg (by simp [hwall])]
  · intro hnn
    refine ⟨by omega, ?_⟩
    intro d hd
    have hidx : (y + d) * w + x = (y * w + x) + d * w := by ring
    rw [hidx]
    by_cases hd0 : d = 0
    · subst hd0
      simp only [Nat.zero_mul, Nat.add_zero]
      rw [hframe (y * w + x) ?_]
      · exact List.getElem?_set_self hib
      · intro d1 hd1 hd2
        have hmul : 1 ≤ d1 * w := by
          have := Nat.mul_le_mul hd1 hw
          omega
        omega
    · exact hcells d (by omega) hd
  · intro hneg
    have ht0 : rle.toNat = 0 := by omega
    omega
  · intro h1
    have hm : max rle 1 = rle := max_eq_left (by omega)
    omega

/-- Witness for C10: the active-count conclusion applied to a concrete
record (active type 5, u8 count 1): the type-5 counter is bumped by
max(1, 1). -/
theorem C10_tile_counts_undercount_witness :
    (bumpCount zeroCounts 5 (max 1 1))
        ({ IsActive := true, TypeId := 5 } : TileData).TypeId =
      zeroCounts ({ IsActive := true, TypeId := 5 } : TileData).TypeId +
        max 1 1 :=
  (C10_tile_counts_undercount 0 [] 1 0 0 [none, none] zeroCounts zeroCounts
      ⟨[0x42, 5, 1], 0⟩ { IsActive := true, TypeId := 5 } 1
      ⟨[0x42, 5, 1], 3⟩ [some { IsActive := true, TypeId := 5 },
        some { IsActive := true, TypeId := 5 }] 2
      (bumpCount zeroCounts 5 (max 1 1)) zeroCounts ⟨[0x42, 5, 1], 3⟩
      (by decide) (by decide) (by rfl)).1 (by decide)

/-! ## Claim C4: the Pots option rule -/

/-- The pure step function the claim states for Pots: breakpoints 144,
252, 360, 468, 576, 648, 792, 898, 1006, 1114, 1222 mapping to 0, 1, 2,
3, 4, 5, 6, 8, 7, 0, 3, 7. -/
def claimPotsStep (v : Int) : Int :=
  if v < 144 then 0
  else if v < 252 then 1
  else if v < 360 then 2
  else if v < 468 then 3
  else if v < 576 then 4
  else if v < 648 then 5
  else if v < 792 then 6
  else if v < 898 then 8
  else if v < 1006 then 7
  else if v < 1114 then 0
  else if v < 1222 then 3
  else 7

/-- The amended Pots rule: the claimed step function, except that every v
strictly between 900 and 1008 yields option 2 (the extra disjunct the
source carries in its third branch). -/
def amendedPotsStep (v : Int) : Int :=
  if 900 < v ∧ v < 1008 then 2 else claimPotsStep v

set_option maxHeartbeats 1600000 in
/-- The Pots branch of the source equals the amended step function. -/
lemma potsOption_eq_amendedPotsStep (v : Int) :
    potsOption v = amendedPotsStep v := by
  unfold potsOption amendedPotsStep claimPotsStep
  split_ifs <;> omega

set_option maxHeartbeats 800000 in
/-- The Pots branch always resolves to an option below the twelve-entry
bound of the color table. -/
lemma potsOption_lt_twelve (v : Int) : potsOption v < 12 := by
  unfold potsOption
  split_ifs <;> omega

/-- C4 counterexample: an active Pots tile with v = 950.  The claimed
step function yields option 7 there (898 is at most 950 which is below
1006), but the lookup mapping returns option 2 through the source's
extra 900-to-1008 disjunct. -/
theorem C4_pots_claim_counterexample :
    tileToLookup specTileIDs specWallIDs [] [] 0 0 0
        { IsActive := true, TypeId := specTileIDs.Pots, V := 950 }
        (some 0) (some 0) false false false false =
      .ok (LOOKUP_TILE, (specTileIDs.Pots : Int), 2) ∧
    claimPotsStep 950 = 7 ∧
    decide ((2 : Int) = 7) = false := by
  refine ⟨by decide, by decide, by decide⟩

/-- C4 amended: for every active tile of the Pots type (type code below
the 419-row bound, not in the missing set, tiles not transparent, and
with the Pots code distinct from the demon-altar and sunflower codes it
is compared against earlier in the chain), the lookup mapping returns a
Tile descriptor whose option is the claimed step function of v amended
at the 900-to-1008 window, where it yields 2. -/
theorem C4_pots_option_amended :
    ∀ (tids : TileIDs) (wids : WallIDs)
      (missingTiles missingWalls : List Nat) (g r hh : Int)
      (t : TileData) (i j : Option Nat) (tW tL tB : Bool),
      t.IsActive = true → t.TypeId = tids.Pots →
      ¬ t.TypeId ∈ missingTiles → t.TypeId < 419 →
      tids.Pots ≠ tids.DemonAltar → tids.Pots ≠ tids.Sunflower →
      tileToLookup tids wids missingTiles missingWalls g r hh t i j
          false tW tL tB =
        .ok (LOOKUP_TILE, (t.TypeId : Int), amendedPotsStep t.V) := by
  intro tids wids mt mw g r hh t i j tW tL tB hact hty hmiss hlt hda hsf
  have hopt : tileOption tids t j = potsOption t.V := by
    unfold tileOption
    rw [if_neg (by rw [hty]; exact hda), if_neg (by rw [hty]; exact hsf),
        if_pos hty]
  unfold tileToLookup
  rw [if_pos ⟨hact, hmiss, rfl⟩]
  simp only [hopt]
  rw [if_pos hlt, if_pos (potsOption_lt_twelve t.V),
      potsOption_eq_amendedPotsStep]

/-- The concrete Pots tile of the C4 witness. -/
def c4PotsTile : TileData :=
  { IsActive := true, TypeId := specTileIDs.Pots, V := 500 }

/-- Witness for C4: the amended Pots rule applied to a concrete active
Pots tile with v = 500. -/
theorem C4_pots_option_amended_witness :
    tileToLookup specTileIDs specWallIDs [] [] 0 0 0 c4PotsTile
        none none false false false false =
      .ok (LOOKUP_TILE, (c4PotsTile.TypeId : Int),
        amendedPotsStep c4PotsTile.V) :=
  C4_pots_option_amended specTileIDs specWallIDs [] [] 0 0 0 c4PotsTile
    none none false false false (by decide) (by decide) (by decide)
    (by decide) (by decide) (by decide)

/-! ## Claim C6: the first-match-wins cascade -/

/-- The decision cascade in the words of the (amended) claim, with the
coordinates present: an active tile whose type is not in the missing set
(tiles not transparent) yields a Tile descriptor with the per-type
option, provided the type is within the 419-row table and the option
within the 12-option bound (otherwise the corresponding failure);
otherwise liquid with amount above 32 (liquid not transparent) yields a
Liquid descriptor; otherwise a nonzero wall not in the missing set
yields a Wall descriptor whose option is i mod 2 for the planked wall
and 0 otherwise; otherwise, background not transparent, the vertical
band selects Sky, Dirt, Rock index 0 or Rock index 1; otherwise None. -/
def c6LookupSpec (tids : TileIDs) (wids : WallIDs)
    (missingTiles missingWalls : List Nat) (g r hh : Int)
    (t : TileData) (i j : Nat) (tT tW tL tB : Bool) :
    Except PyErr (Nat × Int × Int) :=
  if t.IsActive = true ∧ ¬ t.TypeId ∈ missingTiles ∧ tT = false then
    (if ¬ t.TypeId < 419 then .error .indexError
     else if ¬ tileOption tids t (some j) < 12 then .error .assertionError
     else .ok (LOOKUP_TILE, (t.TypeId : Int), tileOption tids t (some j)))
  else if t.LiquidType ≠ 0 ∧ t.LiquidAmount > 32 ∧ tL = false then
    .ok (LOOKUP_LIQUID, (t.LiquidType : Int), 0)
  else if t.Wall ≠ 0 ∧ ¬ t.Wall ∈ missingWalls ∧ tW = false then
    .ok (LOOKUP_WALL, (t.Wall : Int),
      if t.Wall = wids.Planked then ((i % 2 : Nat) : Int) else 0)
  else if tB = false then
    (if (j : Int) < g then .ok (LOOKUP_SKY, 0, 0)
     else if (j : Int) < r then .ok (LOOKUP_DIRT, 0, 0)
     else if (j : Int) < hh - 204 then .ok (LOOKUP_ROCK, 0, 0)
     else .ok (LOOKUP_ROCK, 1, 0))
  else .ok (LOOKUP_NONE, 0, 0)

/-- C6 counterexample: an active dye-plants tile with u = 32767, an
empty missing set and tiles not transparent.  The claim promises a Tile
descriptor for every such tile, but the resolved option 32767 div 34 =
963 fails the source's option-bound assertion, so the mapping raises
AssertionError instead of yielding a descriptor. -/
theorem C6_cascade_claim_counterexample :
    tileToLookup specTileIDs specWallIDs [] [] 0 0 0
        { IsActive := true, TypeId := specTileIDs.DyePlants, U := 32767 }
        (some 0) (some 0) false false false false =
      .error .assertionError ∧
    ({ IsActive := true, TypeId := specTileIDs.DyePlants, U := 32767 } :
      TileData).IsActive = true ∧
    decide (specTileIDs.DyePlants ∈ ([] : List Nat)) = false := by
  refine ⟨by decide, by decide, by decide⟩

/-- C6 amended: with both coordinates present, the lookup cascade is
first-match-wins exactly as the claim orders it, with case 1 amended to
yield the Tile descriptor only when the per-type option is below the
twelve-option table bound (an assertion failure otherwise, and an index
failure for types at or above 419); and a tile whose liquid amount is at
most 32 never produces a Liquid descriptor. -/
theorem C6_cascade_first_match :
    (∀ (tids : TileIDs) (wids : WallIDs)
        (missingTiles missingWalls : List Nat) (g r hh : Int)
        (t : TileData) (i j : Nat) (tT tW tL tB : Bool),
        tileToLookup tids wids missingTiles missingWalls g r hh t
            (some i) (some j) tT tW tL tB =
          c6LookupSpec tids wids missingTiles missingWalls g r hh t
            i j tT tW tL tB) ∧
    (∀ (tids : TileIDs) (wids : WallIDs)
        (missingTiles missingWalls : List Nat) (g r hh : Int)
        (t : TileData) (i j : Option Nat) (tT tW tL tB : Bool),
        t.LiquidAmount ≤ 32 →
        ∀ res, tileToLookup tids wids missingTiles missingWalls g r hh t
            i j tT tW tL tB = .ok res →
          (res.1 == LOOKUP_LIQUID) = false) := by
  constructor
  · intro tids wids mt mw g r hh t i j tT tW tL tB
    unfold tileToLookup c6LookupSpec
    simp only [Option.isSome_some, Option.getD_some, true_and, and_true]
    split_ifs <;> rfl
  · intro tids wids mt mw g r hh t i j tT tW tL tB hle res hres
    unfold tileToLookup at hres
    dsimp only at hres
    split_ifs at hres <;>
      injection hres with h <;> subst h <;>
        first
          | rfl
          | (exfalso
             omega)

/-- Witness for C6: the liquid conclusion applied to a concrete default
tile (liquid amount zero) that resolves to the deep-rock descriptor. -/
theorem C6_cascade_first_match_witness :
    (((LOOKUP_ROCK, (1 : Int), (0 : Int)) : Nat × Int × Int).1 ==
      LOOKUP_LIQUID) = false :=
  C6_cascade_first_match.2 specTileIDs specWallIDs [] [] 0 0 0 {}
    (some 0) (some 0) false false false false (by decide)
    (LOOKUP_ROCK, 1, 0) (by decide)

end PyTerraria
